import Mathlib

/-!
Verification development for the PiBeat live-coding audio engine
(`src-tauri/src/audio/parser.rs`, `src-tauri/src/audio/synth.rs`,
`src-tauri/src/lib.rs`).

Modelling conventions:
* `f32` values are modelled as exact rationals (`ℚ`) wherever the verified
  properties are structural (which events are emitted, at which symbolic
  times); the equal-temperament frequency table, which is irrational, is
  modelled over `ℝ`.
* Where IEEE-754 special values (NaN, infinities) are observable — the ADSR
  envelope divides by a possibly-zero release time — a dedicated value
  domain `F32` with the IEEE special elements is used, and the arithmetic
  operations mirror IEEE semantics on that domain.
* Machine integers (`u64` session counter, `usize`/`i32` in the Euclidean
  rhythm) are natural numbers / integers with explicit `% 2^w` wrapping and
  casts where the Rust code wraps or casts.
-/

/- ────────────────────────────────────────────────────────────────────────
   §A  Music primitives (synth.rs, parser.rs)
   ──────────────────────────────────────────────────────────────────────── -/

/-- Oscillator kinds, from `enum OscillatorType` in synth.rs. -/
inductive OscillatorType where
  | Sine | Saw | Square | Triangle | Noise | Pulse | SuperSaw
  | DSaw | DPulse | DTri
  | FM | ModFM | ModSine | ModSaw | ModDSaw | ModTri | ModPulse
  | TB303 | Prophet | Zawa
  | Blade | TechSaws | Hoover
  | Pluck | Piano | PrettyBell | DullBell
  | Hollow | DarkAmbience | Growl
  | ChipLead | ChipBass | ChipNoise
  | BNoise | PNoise | GNoise | CNoise
  | SubPulse
deriving DecidableEq, Repr

/-- ADSR envelope, from `struct Envelope` in synth.rs (four `f32` fields). -/
structure Envelope where
  attack : ℚ
  decay : ℚ
  sustain : ℚ
  release : ℚ
deriving DecidableEq, Repr

/-- Synth-name table, translated from `parse_synth_name` in parser.rs.
Unlisted names hit the final wildcard arm. -/
def parse_synth_name (name : String) : OscillatorType :=
  if name = "sine" ∨ name = "beep" then .Sine
  else if name = "saw" then .Saw
  else if name = "square" then .Square
  else if name = "tri" ∨ name = "triangle" then .Triangle
  else if name = "noise" then .Noise
  else if name = "pulse" then .Pulse
  else if name = "supersaw" ∨ name = "super_saw" then .SuperSaw
  else if name = "dsaw" then .DSaw
  else if name = "dpulse" then .DPulse
  else if name = "dtri" then .DTri
  else if name = "fm" then .FM
  else if name = "mod_fm" then .ModFM
  else if name = "mod_sine" then .ModSine
  else if name = "mod_saw" then .ModSaw
  else if name = "mod_dsaw" then .ModDSaw
  else if name = "mod_tri" then .ModTri
  else if name = "mod_pulse" then .ModPulse
  else if name = "tb303" then .TB303
  else if name = "prophet" then .Prophet
  else if name = "zawa" then .Zawa
  else if name = "blade" then .Blade
  else if name = "tech_saws" then .TechSaws
  else if name = "hoover" then .Hoover
  else if name = "pluck" then .Pluck
  else if name = "piano" then .Piano
  else if name = "pretty_bell" then .PrettyBell
  else if name = "dull_bell" then .DullBell
  else if name = "hollow" then .Hollow
  else if name = "dark_ambience" then .DarkAmbience
  else if name = "growl" then .Growl
  else if name = "chiplead" ∨ name = "chip_lead" then .ChipLead
  else if name = "chipbass" ∨ name = "chip_bass" then .ChipBass
  else if name = "chipnoise" ∨ name = "chip_noise" then .ChipNoise
  else if name = "bnoise" ∨ name = "brown_noise" then .BNoise
  else if name = "pnoise" ∨ name = "pink_noise" then .PNoise
  else if name = "gnoise" ∨ name = "grey_noise" then .GNoise
  else if name = "cnoise" ∨ name = "clip_noise" then .CNoise
  else if name = "subpulse" ∨ name = "sub_pulse" then .SubPulse
  else if name = "bass" then .TB303
  else if name = "lead" then .SuperSaw
  else if name = "pad" then .Hollow
  else if name = "winwood_lead" then .SuperSaw
  else .Sine

/-- Names with a dedicated (non-wildcard) arm in `parse_synth_name`. -/
def known_synth_names : List String :=
  ["sine", "beep", "saw", "square", "tri", "triangle", "noise", "pulse",
   "supersaw", "super_saw", "dsaw", "dpulse", "dtri", "fm", "mod_fm",
   "mod_sine", "mod_saw", "mod_dsaw", "mod_tri", "mod_pulse", "tb303",
   "prophet", "zawa", "blade", "tech_saws", "hoover", "pluck", "piano",
   "pretty_bell", "dull_bell", "hollow", "dark_ambience", "growl",
   "chiplead", "chip_lead", "chipbass", "chip_bass", "chipnoise",
   "chip_noise", "bnoise", "brown_noise", "pnoise", "pink_noise", "gnoise",
   "grey_noise", "cnoise", "clip_noise", "subpulse", "sub_pulse", "bass",
   "lead", "pad", "winwood_lead"]

/-- Scale-interval table, translated from `scale_intervals` in parser.rs.
The final wildcard arm defaults to the major scale. -/
def scale_intervals (scale_type : String) : List ℤ :=
  if scale_type = "major" ∨ scale_type = "ionian" then [0, 2, 4, 5, 7, 9, 11]
  else if scale_type = "minor" ∨ scale_type = "aeolian" ∨ scale_type = "natural_minor" then [0, 2, 3, 5, 7, 8, 10]
  else if scale_type = "harmonic_minor" then [0, 2, 3, 5, 7, 8, 11]
  else if scale_type = "melodic_minor" ∨ scale_type = "melodic_minor_asc" then [0, 2, 3, 5, 7, 9, 11]
  else if scale_type = "dorian" then [0, 2, 3, 5, 7, 9, 10]
  else if scale_type = "phrygian" then [0, 1, 3, 5, 7, 8, 10]
  else if scale_type = "lydian" then [0, 2, 4, 6, 7, 9, 11]
  else if scale_type = "mixolydian" then [0, 2, 4, 5, 7, 9, 10]
  else if scale_type = "locrian" then [0, 1, 3, 5, 6, 8, 10]
  else if scale_type = "minor_pentatonic" ∨ scale_type = "minor_penta" then [0, 3, 5, 7, 10]
  else if scale_type = "major_pentatonic" ∨ scale_type = "major_penta" then [0, 2, 4, 7, 9]
  else if scale_type = "pentatonic" then [0, 2, 4, 7, 9]
  else if scale_type = "blues" ∨ scale_type = "blues_minor" then [0, 3, 5, 6, 7, 10]
  else if scale_type = "blues_major" then [0, 2, 3, 4, 7, 9]
  else if scale_type = "whole_tone" ∨ scale_type = "whole" then [0, 2, 4, 6, 8, 10]
  else if scale_type = "chromatic" then [0, 1, 2, 3, 4, 5, 6, 7, 8, 9, 10, 11]
  else if scale_type = "diminished" ∨ scale_type = "octatonic" then [0, 2, 3, 5, 6, 8, 9, 11]
  else if scale_type = "hex_major6" then [0, 2, 4, 5, 7, 9]
  else if scale_type = "hex_dorian" then [0, 2, 3, 5, 7, 10]
  else if scale_type = "hex_phrygian" then [0, 1, 3, 5, 8, 10]
  else if scale_type = "hex_major7" then [0, 2, 4, 5, 7, 11]
  else if scale_type = "hex_sus" then [0, 2, 5, 7, 9, 10]
  else if scale_type = "hex_aeolian" then [0, 3, 5, 7, 8, 10]
  else if scale_type = "hungarian_minor" then [0, 2, 3, 6, 7, 8, 11]
  else if scale_type = "diatonic" then [0, 2, 4, 7, 9]
  else if scale_type = "hirajoshi" then [0, 2, 3, 7, 8]
  else if scale_type = "iwato" then [0, 1, 5, 6, 10]
  else if scale_type = "kumoi" then [0, 2, 3, 7, 9]
  else if scale_type = "in_sen" ∨ scale_type = "in" then [0, 1, 5, 7, 10]
  else if scale_type = "yo" then [0, 3, 5, 7, 10]
  else if scale_type = "pelog" then [0, 1, 3, 7, 8]
  else if scale_type = "chinese" then [0, 4, 6, 7, 11]
  else if scale_type = "egyptian" then [0, 2, 5, 7, 10]
  else if scale_type = "enigmatic" then [0, 1, 4, 6, 8, 10, 11]
  else if scale_type = "spanish" then [0, 1, 3, 4, 5, 7, 8, 10]
  else if scale_type = "gypsy" then [0, 2, 3, 6, 7, 8, 11]
  else if scale_type = "super_locrian" then [0, 1, 3, 4, 6, 8, 10]
  else if scale_type = "prometheus" then [0, 2, 4, 6, 9, 10]
  else if scale_type = "neapolitan_minor" then [0, 1, 3, 5, 7, 8, 11]
  else if scale_type = "neapolitan_major" then [0, 1, 3, 5, 7, 9, 11]
  else if scale_type = "bartok" then [0, 2, 4, 6, 7, 9, 10]
  else if scale_type = "bhairav" then [0, 1, 4, 5, 7, 8, 11]
  else if scale_type = "ahirbhairav" then [0, 1, 4, 5, 7, 9, 10]
  else if scale_type = "marva" then [0, 1, 4, 6, 7, 9, 11]
  else if scale_type = "todi" then [0, 1, 3, 6, 7, 8, 11]
  else if scale_type = "purvi" then [0, 1, 4, 6, 7, 8, 11]
  else [0, 2, 4, 5, 7, 9, 11]

/-- Names with a dedicated arm in `scale_intervals`. -/
def known_scale_names : List String :=
  ["major", "ionian", "minor", "aeolian", "natural_minor", "harmonic_minor",
   "melodic_minor", "melodic_minor_asc", "dorian", "phrygian", "lydian",
   "mixolydian", "locrian", "minor_pentatonic", "minor_penta",
   "major_pentatonic", "major_penta", "pentatonic", "blues", "blues_minor",
   "blues_major", "whole_tone", "whole", "chromatic", "diminished",
   "octatonic", "hex_major6", "hex_dorian", "hex_phrygian", "hex_major7",
   "hex_sus", "hex_aeolian", "hungarian_minor", "diatonic", "hirajoshi",
   "iwato", "kumoi", "in_sen", "in", "yo", "pelog", "chinese", "egyptian",
   "enigmatic", "spanish", "gypsy", "super_locrian", "prometheus",
   "neapolitan_minor", "neapolitan_major", "bartok", "bhairav",
   "ahirbhairav", "marva", "todi", "purvi"]

/-- Chord-interval table, translated from `chord_intervals` in parser.rs.
The final wildcard arm defaults to the major triad. -/
def chord_intervals (chord_type : String) : List ℤ :=
  if chord_type = "major" ∨ chord_type = "M" then [0, 4, 7]
  else if chord_type = "minor" ∨ chord_type = "m" then [0, 3, 7]
  else if chord_type = "major7" ∨ chord_type = "M7" ∨ chord_type = "maj7" then [0, 4, 7, 11]
  else if chord_type = "minor7" ∨ chord_type = "m7" ∨ chord_type = "min7" then [0, 3, 7, 10]
  else if chord_type = "dom7" ∨ chord_type = "7" then [0, 4, 7, 10]
  else if chord_type = "dim" ∨ chord_type = "diminished" then [0, 3, 6]
  else if chord_type = "dim7" ∨ chord_type = "diminished7" then [0, 3, 6, 9]
  else if chord_type = "aug" ∨ chord_type = "augmented" then [0, 4, 8]
  else if chord_type = "sus2" then [0, 2, 7]
  else if chord_type = "sus4" then [0, 5, 7]
  else if chord_type = "add9" then [0, 4, 7, 14]
  else if chord_type = "m9" ∨ chord_type = "minor9" then [0, 3, 7, 10, 14]
  else if chord_type = "9" ∨ chord_type = "dom9" then [0, 4, 7, 10, 14]
  else if chord_type = "11" then [0, 4, 7, 10, 14, 17]
  else if chord_type = "13" then [0, 4, 7, 10, 14, 17, 21]
  else if chord_type = "power" ∨ chord_type = "5" then [0, 7]
  else if chord_type = "i" then [0, 4, 7]
  else if chord_type = "ii" then [0, 3, 7]
  else [0, 4, 7]

/-- Names with a dedicated arm in `chord_intervals`. -/
def known_chord_names : List String :=
  ["major", "M", "minor", "m", "major7", "M7", "maj7", "minor7", "m7",
   "min7", "dom7", "7", "dim", "diminished", "dim7", "diminished7", "aug",
   "augmented", "sus2", "sus4", "add9", "m9", "minor9", "9", "dom9", "11",
   "13", "power", "5", "i", "ii"]

/- ────────────────────────────────────────────────────────────────────────
   §B  IEEE-style value domain and the ADSR envelope (synth.rs)
   ──────────────────────────────────────────────────────────────────────── -/

/-- Value domain for `f32` computations whose IEEE special values are
observable: a finite rational, the two infinities, or NaN.  (Rounding is
not modelled; finite values are exact rationals.) -/
inductive F32 where
  | fin (x : ℚ)
  | inf
  | ninf
  | nan
deriving DecidableEq, Repr

namespace F32

/-- IEEE addition restricted to the shapes reachable here. -/
def add : F32 → F32 → F32
  | nan, _ => nan
  | _, nan => nan
  | fin a, fin b => fin (a + b)
  | fin _, inf => inf
  | fin _, ninf => ninf
  | inf, fin _ => inf
  | ninf, fin _ => ninf
  | inf, inf => inf
  | ninf, ninf => ninf
  | inf, ninf => nan
  | ninf, inf => nan

/-- IEEE subtraction. -/
def sub : F32 → F32 → F32
  | nan, _ => nan
  | _, nan => nan
  | fin a, fin b => fin (a - b)
  | fin _, inf => ninf
  | fin _, ninf => inf
  | inf, fin _ => inf
  | ninf, fin _ => ninf
  | inf, ninf => inf
  | ninf, inf => ninf
  | inf, inf => nan
  | ninf, ninf => nan

/-- IEEE multiplication. -/
def mul : F32 → F32 → F32
  | nan, _ => nan
  | _, nan => nan
  | fin a, fin b => fin (a * b)
  | fin a, inf => if a = 0 then nan else if 0 < a then inf else ninf
  | inf, fin a => if a = 0 then nan else if 0 < a then inf else ninf
  | fin a, ninf => if a = 0 then nan else if 0 < a then ninf else inf
  | ninf, fin a => if a = 0 then nan else if 0 < a then ninf else inf
  | inf, inf => inf
  | ninf, ninf => inf
  | inf, ninf => ninf
  | ninf, inf => ninf

/-- IEEE division (the divisors reachable in the envelope are finite; a
finite nonzero value divided by zero gives a signed infinity, 0/0 gives
NaN, as in IEEE-754 with a positive zero). -/
def div : F32 → F32 → F32
  | nan, _ => nan
  | _, nan => nan
  | fin a, fin b =>
      if b = 0 then (if a = 0 then nan else if 0 < a then inf else ninf)
      else fin (a / b)
  | fin _, inf => fin 0
  | fin _, ninf => fin 0
  | inf, fin b => if 0 ≤ b then inf else ninf
  | ninf, fin b => if 0 ≤ b then ninf else inf
  | inf, inf => nan
  | ninf, ninf => nan
  | inf, ninf => nan
  | ninf, inf => nan

/-- Rust `f32::max`: if one operand is NaN the other is returned. -/
def fmax : F32 → F32 → F32
  | nan, b => b
  | a, nan => a
  | inf, _ => inf
  | _, inf => inf
  | ninf, b => b
  | a, ninf => a
  | fin a, fin b => fin (max a b)

/-- IEEE `<` comparison: false whenever an operand is NaN. -/
def blt : F32 → F32 → Bool
  | nan, _ => false
  | _, nan => false
  | inf, _ => false
  | fin _, inf => true
  | ninf, inf => true
  | ninf, ninf => false
  | ninf, fin _ => true
  | fin _, ninf => false
  | fin a, fin b => decide (a < b)

end F32

/-- ADSR evaluator, translated from `SynthVoice::envelope_value` in
synth.rs.  The voice fields it reads (`self.envelope`, `self.sample_rate`)
are passed as arguments; `samples_elapsed` and `total_samples` are the
`u64` arguments of the source. -/
def envelope_value (env : Envelope) (sample_rate : ℚ)
    (samples_elapsed total_samples : ℕ) : F32 :=
  let t := F32.div (.fin samples_elapsed) (.fin sample_rate)
  let total_t := F32.div (.fin total_samples) (.fin sample_rate)
  let release_start := F32.sub total_t (.fin env.release)
  if F32.blt t (.fin env.attack) then
    F32.div t (.fin env.attack)
  else if F32.blt t (F32.add (.fin env.attack) (.fin env.decay)) then
    let decay_t := F32.div (F32.sub t (.fin env.attack)) (.fin env.decay)
    F32.sub (.fin 1) (F32.mul (.fin (1 - env.sustain)) decay_t)
  else if F32.blt t release_start then
    .fin env.sustain
  else
    let release_t := F32.div (F32.sub t release_start) (.fin env.release)
    F32.mul (.fin env.sustain) (F32.fmax (F32.sub (.fin 1) release_t) (.fin 0))

/- ────────────────────────────────────────────────────────────────────────
   §C  Parsed commands and the lowering pass (parser.rs)
   ──────────────────────────────────────────────────────────────────────── -/

/-- Parsed-command tree, from `enum ParsedCommand` in parser.rs. -/
inductive ParsedCommand where
  | PlayNote (synth_type : OscillatorType)
      (frequency amplitude duration pan : ℚ) (envelope : Envelope)
      (params : List (String × ℚ))
  | PlaySample (name : String) (rate amplitude pan : ℚ)
  | Sleep (beats : ℚ)
  | SetBpm (bpm : ℚ)
  | SetVolume (vol : ℚ)
  | SetSynth (osc : OscillatorType)
  | WithFx (fx_type : String) (params : List (String × ℚ))
      (commands : List ParsedCommand)
  | Loop (name : String) (commands : List ParsedCommand) (parallel : Bool)
  | TimesLoop (count : ℕ) (commands : List ParsedCommand)
  | Stop
  | Comment (s : String)
  | Log (s : String)

/-- Timed audio command, from `enum AudioCommand` in engine.rs. -/
inductive AudioCommand where
  | PlayNote (synth_type : OscillatorType)
      (frequency amplitude duration_secs : ℚ) (envelope : Envelope)
      (pan : ℚ) (params : List (String × ℚ))
  | PlaySample (samples : List ℚ) (sample_rate : ℕ) (amplitude rate pan : ℚ)
  | SetBpm (bpm : ℚ)
  | SetMasterVolume (vol : ℚ)
  | Stop
  | SetEffect (reverb_mix delay_time delay_feedback distortion
      lpf_cutoff hpf_cutoff : ℚ)
  | FxStart (fx_type : String) (params : List (String × ℚ))
  | FxEnd

/-- Test for the `Stop` constructor (the Rust code uses
`matches!(c, ParsedCommand::Stop)`). -/
def ParsedCommand.isStop : ParsedCommand → Bool
  | .Stop => true
  | _ => false

/-- Mutable state of the `commands_to_audio` walk in parser.rs: the
accumulated output plus the local variables `time_offset`, `current_bpm`,
`beat_duration` and the six current effect parameters. -/
structure LowerState where
  result : List (ℚ × AudioCommand)
  time_offset : ℚ
  current_bpm : ℚ
  beat_duration : ℚ
  current_reverb : ℚ
  current_delay_time : ℚ
  current_delay_feedback : ℚ
  current_distortion : ℚ
  current_lpf : ℚ
  current_hpf : ℚ

/-- Initial lowering state: the local-variable initialisers at the top of
`commands_to_audio` (empty output, `time_offset = 0.0`,
`beat_duration = 60.0 / bpm`, reverb/delay/distortion `0.0`,
`lpf = 20000.0`, `hpf = 20.0`). -/
def init_lower_state (bpm : ℚ) : LowerState :=
  ⟨[], 0, bpm, 60 / bpm, 0, 0, 0, 0, 20000, 20⟩

/-- Effect-parameter folding for a `WithFx` block: the `match fx_type` in
the `WithFx` arm of `commands_to_audio`, which overwrites the current
effect parameters from the block's parameter list. -/
def fold_fx_params (st : LowerState) (fx_type : String)
    (params : List (String × ℚ)) : LowerState :=
  match fx_type with
  | "reverb" | "gverb" | "krush" =>
      { st with current_reverb :=
          ((params.find? (fun p => p.1 == "mix")).map Prod.snd).getD (1/2) }
  | "echo" | "delay" =>
      { st with
        current_delay_time :=
          ((params.find? (fun p => p.1 == "phase" || p.1 == "time")).map
            Prod.snd).getD (1/4)
        current_delay_feedback :=
          ((params.find? (fun p => p.1 == "feedback" || p.1 == "decay")).map
            Prod.snd).getD (1/2) }
  | "distortion" | "tanh" =>
      { st with current_distortion :=
          ((params.find? (fun p => p.1 == "distort" || p.1 == "mix")).map
            Prod.snd).getD (1/2) }
  | "lpf" | "rlpf" | "nrlpf" =>
      { st with current_lpf :=
          ((params.find? (fun p => p.1 == "cutoff")).map Prod.snd).getD 1000 }
  | "hpf" | "rhpf" | "nrhpf" =>
      { st with current_hpf :=
          ((params.find? (fun p => p.1 == "cutoff")).map Prod.snd).getD 500 }
  | _ => st

/-- Loop-iteration driver shared by the `Loop` and `TimesLoop` arms of
`commands_to_audio`: on each iteration the (deterministic) inner event
list is appended shifted by the running time, the running time advances by
the inner duration, and the iteration stops early once the accumulated
output exceeds 100000 events (the source's safety cap). -/
def run_iters (inner : List (ℚ × AudioCommand)) (innerDur : ℚ) :
    ℕ → List (ℚ × AudioCommand) × ℚ → List (ℚ × AudioCommand) × ℚ
  | 0, acc => acc
  | n + 1, (res, t) =>
      let res' := res ++ inner.map (fun p => (t + p.1, p.2))
      let t' := t + innerDur
      if 100000 < res'.length then (res', t')
      else run_iters inner innerDur n (res', t')

/-- Sequential duration of a command list in seconds, translated from
`commands_to_duration` in parser.rs (the running `dur` accumulator is
expressed as a sum over the recursion; `beat_duration` is `60 / bpm` for
the bpm current at each step). -/
def commands_to_duration : List ParsedCommand → ℚ → ℚ
  | [], _ => 0
  | c :: rest, bpm =>
    match c with
    | .Sleep beats => beats * (60 / bpm) + commands_to_duration rest bpm
    | .SetBpm v => commands_to_duration rest v
    | .TimesLoop count body =>
        count * commands_to_duration body bpm + commands_to_duration rest bpm
    | .Loop _ body par =>
        (if par then 0
         else (if body.any ParsedCommand.isStop then (1 : ℚ) else 500) *
            commands_to_duration body bpm)
        + commands_to_duration rest bpm
    | .WithFx _ _ body =>
        commands_to_duration body bpm + commands_to_duration rest bpm
    | .Stop => 0
    | _ => commands_to_duration rest bpm
termination_by l _ => sizeOf l
decreasing_by all_goals (simp_wf <;> omega)

mutual

/-- One step of the lowering walk: the body of the `for cmd in parsed`
loop of `commands_to_audio` in parser.rs, for a single command.  (The
`Stop` arm of the source `break`s out of the enclosing loop; that is
handled by `commands_to_audio_list`, so this function leaves the state
unchanged on `Stop`.) -/
def commands_to_audio_cmd (c : ParsedCommand) (st : LowerState) :
    LowerState :=
  match c with
  | .PlayNote synth_type frequency amplitude duration pan envelope params =>
      if 0 < frequency then
        { st with result := st.result ++
            [(st.time_offset, .PlayNote synth_type frequency amplitude
                (duration + envelope.attack + envelope.decay +
                  envelope.release) envelope pan params)] }
      else st
  | .PlaySample _name rate amplitude pan =>
      { st with result := st.result ++
          [(st.time_offset, .PlaySample [] 44100 amplitude rate pan)] }
  | .Sleep beats =>
      { st with time_offset := st.time_offset + beats * st.beat_duration }
  | .SetBpm v =>
      { st with
        current_bpm := v
        beat_duration := 60 / v
        result := st.result ++ [(st.time_offset, .SetBpm v)] }
  | .SetVolume vol =>
      { st with result := st.result ++
          [(st.time_offset, .SetMasterVolume vol)] }
  | .WithFx fx_type params body =>
      let st1 := { st with result := st.result ++
          [(st.time_offset, AudioCommand.FxStart fx_type params)] }
      let st2 := fold_fx_params st1 fx_type params
      let st3 := { st2 with result := st2.result ++
          [(st2.time_offset, AudioCommand.SetEffect st2.current_reverb
              st2.current_delay_time st2.current_delay_feedback
              st2.current_distortion st2.current_lpf st2.current_hpf)] }
      let inner :=
        (commands_to_audio_list body (init_lower_state st.current_bpm)).result
      let shifted := inner.map (fun p => (st3.time_offset + p.1, p.2))
      let st4 := { st3 with result := st3.result ++ shifted }
      let innerDur := commands_to_duration body st.current_bpm
      let st5 := { st4 with time_offset := st4.time_offset + innerDur }
      let st6 := { st5 with result := st5.result ++
          [(st5.time_offset, AudioCommand.FxEnd)] }
      { st6 with
        current_reverb := st.current_reverb
        current_delay_time := st.current_delay_time
        current_delay_feedback := st.current_delay_feedback
        current_distortion := st.current_distortion
        current_lpf := st.current_lpf
        current_hpf := st.current_hpf
        result := st6.result ++
          [(st6.time_offset, AudioCommand.SetEffect st.current_reverb
              st.current_delay_time st.current_delay_feedback
              st.current_distortion st.current_lpf st.current_hpf)] }
  | .Loop _name body par =>
      let has_stop := body.any ParsedCommand.isStop
      let iters := if has_stop then 1 else 500
      let inner :=
        (commands_to_audio_list body (init_lower_state st.current_bpm)).result
      let innerDur := commands_to_duration body st.current_bpm
      let acc := run_iters inner innerDur iters (st.result, st.time_offset)
      if par then { st with result := acc.1 }
      else { st with result := acc.1, time_offset := acc.2 }
  | .TimesLoop count body =>
      let inner :=
        (commands_to_audio_list body (init_lower_state st.current_bpm)).result
      let innerDur := commands_to_duration body st.current_bpm
      let acc := run_iters inner innerDur count (st.result, st.time_offset)
      { st with result := acc.1, time_offset := acc.2 }
  | .Stop => st
  | .SetSynth _ => st
  | .Comment _ => st
  | .Log _ => st
termination_by sizeOf c
decreasing_by all_goals (simp_wf <;> omega)

/-- Lowering walk over a command list: the `for cmd in parsed` loop of
`commands_to_audio`; a `Stop` command `break`s (remaining commands are
dropped). -/
def commands_to_audio_list (cmds : List ParsedCommand) (st : LowerState) :
    LowerState :=
  match cmds with
  | [] => st
  | .Stop :: _ => st
  | c :: rest => commands_to_audio_list rest (commands_to_audio_cmd c st)
termination_by sizeOf cmds
decreasing_by all_goals (simp_wf <;> omega)

end

/-- Entry point `commands_to_audio(parsed, bpm)` of parser.rs: the timed
event list produced by the lowering walk from the initial state. -/
def commands_to_audio (parsed : List ParsedCommand) (bpm : ℚ) :
    List (ℚ × AudioCommand) :=
  (commands_to_audio_list parsed (init_lower_state bpm)).result

/-- Stable sort of the lowered events by time offset: the
`all_events.sort_by(|a, b| a.0.partial_cmp(&b.0) …)` step of `run_code`
in lib.rs, which orders the schedule before the dispatch worker runs. -/
def sort_events (l : List (ℚ × AudioCommand)) : List (ℚ × AudioCommand) :=
  l.insertionSort (fun a b => a.1 ≤ b.1)

/- ────────────────────────────────────────────────────────────────────────
   §D  Euclidean rhythm (`spread`) — parser.rs `euclidean_rhythm`
   ──────────────────────────────────────────────────────────────────────── -/

/-- Rust `usize as i32` cast: keep the low 32 bits, reinterpreted as a
two's-complement signed value. -/
def usize_as_i32 (n : ℕ) : ℤ :=
  if n % 2 ^ 32 < 2 ^ 31 then (n % 2 ^ 32 : ℤ) else (n % 2 ^ 32 : ℤ) - 2 ^ 32

/-- Two's-complement wrap of an integer into the `i32` range
`[-2^31, 2^31)`: the release-mode semantics of overflowing `i32`
arithmetic in Rust (a debug build would panic instead). -/
def wrap_i32 (z : ℤ) : ℤ := (z + 2 ^ 31) % 2 ^ 32 - 2 ^ 31

/-- Bucket loop of `euclidean_rhythm`: per step the bucket gains `pulses`
(`bucket += pulses as i32`, an `i32` addition that wraps on overflow);
when it reaches `steps` it is reduced by `steps` (`bucket -= steps as i32`,
likewise an `i32` subtraction) and the step is marked `true`.  Returns
the pattern together with the final bucket value. -/
def euclid_go (pulses steps : ℤ) : ℕ → ℤ → List Bool × ℤ
  | 0, bucket => ([], bucket)
  | n + 1, bucket =>
      let b := wrap_i32 (bucket + pulses)
      if steps ≤ b then
        let r := euclid_go pulses steps n (wrap_i32 (b - steps))
        (true :: r.1, r.2)
      else
        let r := euclid_go pulses steps n b
        (false :: r.1, r.2)

/-- Euclidean/Bjorklund pattern, translated from `euclidean_rhythm` in
parser.rs (`spread(pulses, steps)`).  The bucket arithmetic is done on
`i32` values obtained by casting the `usize` arguments. -/
def euclidean_rhythm (pulses steps : ℕ) : List Bool :=
  if steps = 0 then []
  else if steps ≤ pulses then List.replicate steps true
  else if pulses = 0 then List.replicate steps false
  else (euclid_go (usize_as_i32 pulses) (usize_as_i32 steps) steps 0).1

/- ────────────────────────────────────────────────────────────────────────
   §E  Session epoch and the dispatch worker (lib.rs)
   ──────────────────────────────────────────────────────────────────────── -/

/-- Session-epoch bump: `*session = session.wrapping_add(1)` on the `u64`
counter, performed by `stop_audio` and at the start of every `run_code`. -/
def bump_session (s : ℕ) : ℕ := (s + 1) % 2 ^ 64

/-- Dispatch worker of the scheduler thread in `run_code`: before acting
on each event it re-reads the current epoch under the lock and returns
immediately on a mismatch with its captured epoch.  Each event is paired
with the epoch value the worker observes just before dispatching it; the
function returns the events actually dispatched. -/
def worker_dispatch {α : Type} (captured : ℕ) :
    List (ℕ × α) → List α
  | [] => []
  | (observed, e) :: rest =>
      if observed = captured then e :: worker_dispatch captured rest
      else []

/- ────────────────────────────────────────────────────────────────────────
   §G  Sample preloading (lib.rs `preload_samples`)
   ──────────────────────────────────────────────────────────────────────── -/

/-- One sample of the placeholder generated for a missing file in
`preload_samples`: with `t = i / 44100`, the value
`(t * 440.0 * 2.0 * PI).sin() * (-t * 20.0).exp()` — a 440 Hz sine with a
20 /s exponential decay. -/
noncomputable def fallback_sample (i : ℕ) : ℝ :=
  Real.sin ((i : ℝ) / 44100 * 440 * 2 * Real.pi) *
    Real.exp (-((i : ℝ) / 44100) * 20)

/-- Placeholder buffer for a missing sample file: `n = (sr as f32 * dur)
as usize` with `sr = 44100`, `dur = 0.2`.  In `f32`, `0.2` is
`13421773 / 2^26 ≈ 0.20000000298`, the product rounds to `8820.0`, and the
cast truncates to `8820`. -/
noncomputable def fallback_buffer : List ℝ :=
  (List.range 8820).map fallback_sample

/-- Sample preloading, translated from `preload_samples` in lib.rs.  The
filesystem is abstracted by `fs_exists` (does the resolved path exist),
`load_wav` (decode an existing file) and `resolve_sample_path`; the
`state.loaded_samples` cache is an association list keyed by the resolved
path string.  For a missing file the placeholder buffer is cached under
the resolved key and no error is raised. -/
noncomputable def preload_samples (fs_exists : String → Bool)
    (load_wav : String → Except String (List ℝ × ℕ))
    (resolve_sample_path : String → String) :
    List ParsedCommand → List (String × (List ℝ × ℕ)) →
    Except String (List (String × (List ℝ × ℕ)))
  | [], loaded => .ok loaded
  | c :: rest, loaded =>
    match c with
    | .PlaySample name _ _ _ =>
        let path_str := resolve_sample_path name
        if (loaded.lookup path_str).isSome then
          preload_samples fs_exists load_wav resolve_sample_path rest loaded
        else if fs_exists path_str then
          match load_wav path_str with
          | .ok sa =>
              preload_samples fs_exists load_wav resolve_sample_path rest
                ((path_str, sa) :: loaded)
          | .error e =>
              .error ("Failed to load sample " ++ name ++ ": " ++ e)
        else
          preload_samples fs_exists load_wav resolve_sample_path rest
            ((path_str, (fallback_buffer, 44100)) :: loaded)
    | .Loop _ body _ | .WithFx _ _ body | .TimesLoop _ body =>
        match preload_samples fs_exists load_wav resolve_sample_path body
            loaded with
        | .ok loaded2 =>
            preload_samples fs_exists load_wav resolve_sample_path rest loaded2
        | .error e => .error e
    | _ => preload_samples fs_exists load_wav resolve_sample_path rest loaded
termination_by l _ => sizeOf l
decreasing_by all_goals (simp_wf <;> omega)

/- ────────────────────────────────────────────────────────────────────────
   §F  Line parser (parser.rs) — modelled for single-line sources
   ──────────────────────────────────────────────────────────────────────── -/

/-- Double-quote character. -/
def dquote : Char := Char.ofNat 34

/-- Single-quote character. -/
def squote : Char := Char.ofNat 39

/-- Backslash character. -/
def bslash : Char := Char.ofNat 92

/-- ASCII whitespace test standing in for Rust `char::is_whitespace` /
`split_whitespace` (source programs are ASCII). -/
def is_ws (c : Char) : Bool :=
  c == ' ' || c == Char.ofNat 9 || c == Char.ofNat 10 || c == Char.ofNat 13

/-- ASCII alphabetic test standing in for Rust `char::is_alphabetic`. -/
def is_alpha (c : Char) : Bool :=
  ('a' ≤ c && c ≤ 'z') || ('A' ≤ c && c ≤ 'Z')

/-- Rust `str::trim` on a character list. -/
def trim_chars (l : List Char) : List Char :=
  ((l.dropWhile is_ws).reverse.dropWhile is_ws).reverse

/-- Rust `str::trim_start_matches(c)`: drop every leading `c`. -/
def trim_start_matches_char (c : Char) (l : List Char) : List Char :=
  l.dropWhile (fun d => d == c)

/-- Rust `str::trim_end_matches(c)`: drop every trailing `c`. -/
def trim_end_matches_char (c : Char) (l : List Char) : List Char :=
  (l.reverse.dropWhile (fun d => d == c)).reverse

/-- Rust `str::trim_matches(c)`: drop every leading and trailing `c`. -/
def trim_matches_char (c : Char) (l : List Char) : List Char :=
  trim_end_matches_char c (trim_start_matches_char c l)

/-- Substring test (`str::contains`). -/
def contains_sub (pat : List Char) : List Char → Bool
  | [] => pat.isEmpty
  | c :: rest => pat.isPrefixOf (c :: rest) || contains_sub pat rest

/-- First index at which `pat` occurs (`str::find(pat)`), in characters. -/
def find_sub_idx (pat : List Char) : List Char → Option ℕ
  | [] => if pat.isEmpty then some 0 else none
  | c :: rest =>
      if pat.isPrefixOf (c :: rest) then some 0
      else (find_sub_idx pat rest).map (· + 1)

/-- First index of the character `c` (`str::find(c)`). -/
def find_char_idx (c : Char) : List Char → Option ℕ
  | [] => none
  | d :: rest => if d == c then some 0 else (find_char_idx c rest).map (· + 1)

/-- Accumulator loop for `split_ws`: `cur` holds the current word in
reverse. -/
def split_ws_go (cur : List Char) : List Char → List (List Char)
  | [] => if cur.isEmpty then [] else [cur.reverse]
  | c :: rest =>
      if is_ws c then
        if cur.isEmpty then split_ws_go [] rest
        else cur.reverse :: split_ws_go [] rest
      else split_ws_go (c :: cur) rest

/-- Rust `str::split_whitespace` on a character list. -/
def split_ws (l : List Char) : List (List Char) := split_ws_go [] l

/-- Join words with single spaces (Rust `[..].join(" ")`). -/
def join_space : List (List Char) → List Char
  | [] => []
  | [w] => w
  | w :: rest => w ++ ' ' :: join_space rest

/-- Scan of `strip_inline_comment` in parser.rs: walk the characters
tracking whether we are inside a quoted string (with backslash escapes);
a `#` outside a string cuts the line there. -/
def strip_inline_comment_go (in_string : Bool) (string_char : Char)
    (prev : Option Char) : List Char → List Char
  | [] => []
  | c :: rest =>
      if in_string then
        if c == string_char && prev ≠ some bslash then
          c :: strip_inline_comment_go false string_char (some c) rest
        else
          c :: strip_inline_comment_go true string_char (some c) rest
      else if c == dquote || c == squote then
        c :: strip_inline_comment_go true c (some c) rest
      else if c == '#' then []
      else c :: strip_inline_comment_go false string_char (some c) rest

/-- Rust `strip_inline_comment`: remove a `#` comment that is not inside
a quoted string, then trim. -/
def strip_inline_comment (line : List Char) : List Char :=
  trim_chars (strip_inline_comment_go false ' ' none line)

/-- Scan of `find_trailing_if` / `find_trailing_unless` in parser.rs: find
a quote-aware occurrence of the keyword (`" if "` or `" unless "`) at a
positive position; returns the character index just after the leading
space.  (The source returns a byte index; only presence and the split
position matter here.) -/
def find_trailing_kw_go (kw : List Char) (in_string : Bool)
    (string_char : Char) (prev : Option Char) (pos : ℕ) :
    List Char → Option ℕ
  | [] => none
  | c :: rest =>
      if in_string then
        if c == string_char && prev ≠ some bslash then
          find_trailing_kw_go kw false string_char (some c) (pos + 1) rest
        else
          find_trailing_kw_go kw true string_char (some c) (pos + 1) rest
      else if c == dquote || c == squote then
        find_trailing_kw_go kw true c (some c) (pos + 1) rest
      else if c == ' ' && kw.isPrefixOf (c :: rest) && 0 < pos then
        some (pos + 1)
      else
        find_trailing_kw_go kw false string_char (some c) (pos + 1) rest

/-- Rust `find_trailing_if`. -/
def find_trailing_if_idx (line : List Char) : Option ℕ :=
  find_trailing_kw_go " if ".toList false ' ' none 0 line

/-- Rust `find_trailing_unless`. -/
def find_trailing_unless_idx (line : List Char) : Option ℕ :=
  find_trailing_kw_go " unless ".toList false ' ' none 0 line

/-- Digit run to a natural number; `none` on empty or non-digit input. -/
def parse_nat_chars (l : List Char) : Option ℕ :=
  if l.isEmpty || l.any (fun c => !c.isDigit) then none
  else some (l.foldl (fun acc c => acc * 10 + (c.toNat - 48)) 0)

/-- Rust `str::parse::<usize>` / `<u8>` accept an optional leading `+`. -/
def parse_unsigned_chars (l : List Char) : Option ℕ :=
  match l with
  | '+' :: rest => parse_nat_chars rest
  | _ => parse_nat_chars l

/-- Rust `str::parse::<u8>`: unsigned parse that rejects values above 255
(overflow is a parse error). -/
def parse_u8_chars (l : List Char) : Option ℕ :=
  match parse_unsigned_chars l with
  | some n => if n ≤ 255 then some n else none
  | none => none

/-- Rust `str::parse::<i32>`: optional sign then digits.  (Overflow, which
the source rejects, is not modelled; the inputs of interest are small.) -/
def parse_int_chars (l : List Char) : Option ℤ :=
  match l with
  | '-' :: rest => (parse_nat_chars rest).map (fun n => -(n : ℤ))
  | '+' :: rest => (parse_nat_chars rest).map (fun n => (n : ℤ))
  | _ => (parse_nat_chars l).map (fun n => (n : ℤ))

/-- Decimal-literal model of Rust `str::parse::<f32>`: optional sign,
digits with an optional fractional part, parsed exactly into `ℚ`
(exponent forms and the named special values are not modelled; rounding to
`f32` is not modelled). -/
def parse_decimal_chars (l : List Char) : Option ℚ :=
  let core := fun (m : List Char) =>
    match find_char_idx '.' m with
    | none => (parse_nat_chars m).map (fun n => (n : ℚ))
    | some i =>
        let ip := m.take i
        let fp := m.drop (i + 1)
        if ip.isEmpty && fp.isEmpty then none
        else if ip.any (fun c => !c.isDigit) || fp.any (fun c => !c.isDigit)
          then none
        else
          let ipv : ℕ := ip.foldl (fun acc c => acc * 10 + (c.toNat - 48)) 0
          let fpv : ℕ := fp.foldl (fun acc c => acc * 10 + (c.toNat - 48)) 0
          some ((ipv : ℚ) + (fpv : ℚ) / (10 : ℚ) ^ fp.length)
  match l with
  | [] => none
  | '-' :: rest => (core rest).map (fun q => -q)
  | '+' :: rest => core rest
  | _ => core l

/-- Keyword list of `try_parse_assignment` in parser.rs: lines whose
left-hand side is one of these are not variable assignments. -/
def assignment_keywords : List (List Char) :=
  ["play".toList, "sample".toList, "sleep".toList, "use_bpm".toList,
   "use_synth".toList, "live_loop".toList, "with_fx".toList,
   "puts".toList, "print".toList, "log".toList, "stop".toList,
   "end".toList, "do".toList, "loop".toList, "define".toList,
   "def".toList, "in_thread".toList, "set_volume".toList,
   "set_volume!".toList, "comment".toList, "uncomment".toList,
   "density".toList, "at".toList, "cue".toList, "sync".toList]

/-- Rust `try_parse_assignment`: recognise `name = value` (rejecting `==`,
`=>`, `!=`, `<=`, `>=`, non-identifier left-hand sides and keywords). -/
def try_parse_assignment (line : List Char) :
    Option (List Char × List Char) :=
  match find_char_idx '=' line with
  | none => none
  | some eq_pos =>
      let next := line.getD (eq_pos + 1) ' '
      if eq_pos + 1 < line.length && (next == '=' || next == '>') then none
      else
        let prev := line.getD (eq_pos - 1) ' '
        if 0 < eq_pos && (prev == '!' || prev == '<' || prev == '>') then
          none
        else
          let var_name := trim_chars (line.take eq_pos)
          let var_value := trim_chars (line.drop (eq_pos + 1))
          if var_name.isEmpty then none
          else if !is_alpha (var_name.getD 0 ' ') then none
          else if var_name.contains ' ' then none
          else if assignment_keywords.contains var_name then none
          else some (var_name, var_value)

/-- Rust `try_extract_times_count`: recognise `N.times … do`. -/
def try_extract_times_count (line : List Char) : Option ℕ :=
  let line := trim_chars line
  match find_sub_idx ".times".toList line with
  | none => none
  | some dot_pos =>
      match parse_unsigned_chars (trim_chars (line.take dot_pos)) with
      | some n =>
          if "do".toList.isSuffixOf line then some n else none
      | none => none

/-- Guard conditions of `try_parse_block` in parser.rs, in source order:
a line satisfying any of them is handled by the block parser rather than
by `parse_line`. -/
def is_block_opener (line : List Char) : Bool :=
  "live_loop".toList.isPrefixOf line ||
  "loop do".toList.isPrefixOf line ||
  (try_extract_times_count line).isSome ||
  "with_fx".toList.isPrefixOf line ||
  "in_thread".toList.isPrefixOf line ||
  "define".toList.isPrefixOf line ||
  "def ".toList.isPrefixOf line ||
  "if ".toList.isPrefixOf line ||
  "unless ".toList.isPrefixOf line ||
  "with_synth".toList.isPrefixOf line ||
  "with_bpm".toList.isPrefixOf line ||
  "with_bpm_mul".toList.isPrefixOf line ||
  (contains_sub ".each".toList line &&
    ("do".toList.isSuffixOf line || contains_sub "do |".toList line)) ||
  (contains_sub ".each_with_index".toList line &&
    ("do".toList.isSuffixOf line || contains_sub "do |".toList line)) ||
  "comment do".toList.isPrefixOf line ||
  "uncomment do".toList.isPrefixOf line ||
  "density".toList.isPrefixOf line

/-- Result of the `parse_line` dispatch for one line.  Directive heads
whose arm needs the numeric/expression sub-parsers (parameter extraction,
randomness) are outside the modelled fragment and map to `unmodelled`;
`unrecognized` is the source's `None` (including the wildcard arm). -/
inductive LineParse where
  | parsed (c : ParsedCommand)
  | unrecognized
  | unmodelled (what : String)

/-- Dispatch of `parse_line` in parser.rs on the first whitespace token,
for a fresh parse context (no stored defaults, tick counter 0).  Comment
text follows the source's `format!("# {}", line)`. -/
def parse_line_model (line : List Char) : LineParse :=
  if (find_trailing_if_idx line).isSome then
    .unmodelled "trailing if conditional: outside the modelled fragment"
  else if (find_trailing_unless_idx line).isSome then
    .unmodelled "trailing unless conditional: outside the modelled fragment"
  else
    if (split_ws line).isEmpty then .unrecognized
    else
      let rest_parts := (split_ws line).tail
      let lineStr := String.mk line
      let hd := String.mk ((split_ws line).headD [])
      if hd = "play" ∨ hd = "play_pattern_timed" ∨ hd = "play_pattern" ∨
          hd = "sample" ∨ hd = "sleep" ∨ hd = "wait" ∨ hd = "use_bpm" ∨
          hd = "set_volume!" ∨ hd = "set_volume" ∨ hd = "synth" then
        .unmodelled "numeric directive arm: outside the modelled fragment"
      else if hd = "use_synth" then
        match rest_parts with
        | [] => .unrecognized
        | p1 :: _ =>
            .parsed (.SetSynth (parse_synth_name
              (String.mk (trim_start_matches_char ':' p1))))
      else if hd = "stop" then .parsed .Stop
      else if hd = "puts" ∨ hd = "print" ∨ hd = "log" then
        .parsed (.Log (String.mk
          (trim_matches_char dquote (join_space rest_parts))))
      else if hd = "cue" ∨ hd = "sync" then .parsed (.Comment ("# " ++ lineStr))
      else if hd = "at" then .parsed (.Comment ("# " ++ lineStr))
      else if hd = "use_random_seed" ∨ hd = "use_random_source" then
        .parsed (.Comment ("# " ++ lineStr))
      else if hd = "use_synth_defaults" ∨ hd = "use_sample_defaults" ∨
          hd = "use_merged_synth_defaults" ∨
          hd = "use_merged_sample_defaults" then
        .parsed (.Comment ("# " ++ lineStr))
      else if hd = "tick" then .parsed (.Comment "# tick = 1")
      else if hd = "look" then .parsed (.Comment "# look = 0")
      else if hd = "set" ∨ hd = "get" then .parsed (.Comment ("# " ++ lineStr))
      else if hd = "control" then .parsed (.Comment ("# " ++ lineStr))
      else if hd = "midi" ∨ hd = "midi_note_on" ∨ hd = "midi_note_off" ∨
          hd = "midi_cc" ∨ hd = "midi_raw" ∨ hd = "midi_pitch_bend" ∨
          hd = "midi_channel_pressure" ∨ hd = "midi_poly_pressure" ∨
          hd = "midi_clock_tick" ∨ hd = "midi_start" ∨ hd = "midi_stop" ∨
          hd = "midi_reset" ∨ hd = "midi_local_control_off" ∨
          hd = "midi_local_control_on" ∨ hd = "midi_mode" ∨
          hd = "midi_all_notes_off" then
        .parsed (.Comment ("# " ++ lineStr))
      else if hd = "sample_duration" then .parsed (.Comment ("# " ++ lineStr))
      else if hd = "use_timing_guarantees" ∨ hd = "use_arg_checks" ∨
          hd = "use_debug" ∨ hd = "use_cue_logging" ∨
          hd = "use_external_synths" ∨ hd = "use_arg_bpm_scaling" then
        .parsed (.Comment ("# " ++ lineStr))
      else if hd = "time_warp" ∨ hd = "with_swing" then
        .parsed (.Comment ("# " ++ lineStr))
      else if hd = "with_fx" ∨ hd = "with_synth" ∨ hd = "with_bpm" ∨
          hd = "with_bpm_mul" then
        .unrecognized
      else .unrecognized

/-- One-line model of `parse_code` (parser.rs): the body of the
`parse_code_with_context` loop applied to a single source line in a fresh
context (`join_continuation_lines` is the identity on one line; the
stored-procedure table is empty, so an unrecognised line is silently
skipped).  Lines that reach a block construct or an unmodelled directive
arm return a marker error — they are outside this model's fragment. -/
def parse_plain_line_core (line : List Char) :
    Except String (List ParsedCommand) :=
  if line.isEmpty then .ok []
  else if line.getD 0 ' ' == '#' then .ok [.Comment (String.mk line)]
  else if contains_sub "Time.now".toList line then .ok []
  else if (try_parse_assignment line).isSome then .ok []
  else if is_block_opener line then
    .error "block construct: outside the modelled single-line fragment"
  else
    match parse_line_model line with
    | .parsed c => .ok [c]
    | .unmodelled what => .error what
    | .unrecognized => .ok []

/-- One-line model of `parse_code`: trim and strip the inline comment,
then classify the line. -/
def parse_plain_line (code : String) : Except String (List ParsedCommand) :=
  parse_plain_line_core (strip_inline_comment (trim_chars code.toList))

/-- Equal-temperament frequency from a MIDI note number, from
`midi_to_freq` in synth.rs: `440 · 2^((m − 69)/12)`. -/
noncomputable def midi_to_freq (note : ℕ) : ℝ :=
  440 * (2 : ℝ) ^ (((note : ℝ) - 69) / 12)

/-- Note-name to MIDI conversion, translated from `note_name_to_midi` in
synth.rs (uppercase the name, split a one- or two-character root from the
octave, reject anything outside MIDI range 0–127). -/
def note_name_to_midi (name : String) : Option ℕ :=
  let nm := (trim_chars name.toList).map Char.toUpper
  if 2 ≤ nm.length then
    let c1 := nm.getD 1 ' '
    let split :=
      if c1 == 'S' || c1 == '#' then (nm.take 2, nm.drop 2)
      else if c1 == 'B' && 2 < nm.length then (nm.take 2, nm.drop 2)
      else (nm.take 1, nm.drop 1)
    let base : Option ℤ :=
      match String.mk split.1 with
      | "C" => some 0
      | "CS" | "C#" | "DB" => some 1
      | "D" => some 2
      | "DS" | "D#" | "EB" => some 3
      | "E" => some 4
      | "F" => some 5
      | "FS" | "F#" | "GB" => some 6
      | "G" => some 7
      | "GS" | "G#" | "AB" => some 8
      | "A" => some 9
      | "AS" | "A#" | "BB" => some 10
      | "B" => some 11
      | _ => none
    match base with
    | none => none
    | some b =>
        match parse_int_chars split.2 with
        | none => none
        | some octave =>
            let midi := (octave + 1) * 12 + b
            if 0 ≤ midi ∧ midi ≤ 127 then some midi.toNat else none
  else none

/-- Rust saturating float-to-`u8` cast (`f as u8`) on a finite value. -/
def f32_as_u8 (q : ℚ) : ℕ :=
  if q ≤ 0 then 0 else if 255 ≤ q then 255 else ⌊q⌋.toNat

/-- Numeric / note-name tail of `parse_note_value` (the code after the
`f32` branch): try `u8`, then a note name. -/
noncomputable def parse_note_value_tail (v : List Char) : Option ℝ :=
  match parse_u8_chars v with
  | some midi => some (midi_to_freq midi)
  | none =>
      match note_name_to_midi (String.mk (v.map Char.toUpper)) with
      | some midi => some (midi_to_freq midi)
      | none => none

/-- Note-value parser, translated from `parse_note_value` in parser.rs:
trim, strip trailing commas and a leading colon; the rest symbols
`r` / `rest` / `R` map to frequency `0.0`; a number above 20 is a raw
frequency, a number in `[0, 20]` is truncated to a MIDI note; otherwise
try a MIDI integer and then a note name. -/
noncomputable def parse_note_value (value : String) : Option ℝ :=
  let v := trim_start_matches_char ':'
    (trim_end_matches_char ',' (trim_chars value.toList))
  if v = "r".toList ∨ v = "rest".toList ∨ v = "R".toList then some 0
  else
    match parse_decimal_chars v with
    | some f =>
        if 20 < f then some (f : ℝ)
        else if 0 ≤ f then some (midi_to_freq (f32_as_u8 f))
        else parse_note_value_tail v
    | none => parse_note_value_tail v

/-- Directive heads that have a dedicated arm in the `match parts[0]`
dispatch of `parse_line` (parser.rs); any other head reaches the wildcard
arm, which returns `None`. -/
def parse_line_heads : List String :=
  ["play", "play_pattern_timed", "play_pattern", "sample", "sleep", "wait",
   "use_bpm", "set_volume!", "set_volume", "use_synth", "synth", "stop",
   "puts", "print", "log", "cue", "sync", "at", "use_random_seed",
   "use_random_source", "use_synth_defaults", "use_sample_defaults",
   "use_merged_synth_defaults", "use_merged_sample_defaults", "tick",
   "look", "set", "get", "control", "midi", "midi_note_on", "midi_note_off",
   "midi_cc", "midi_raw", "midi_pitch_bend", "midi_channel_pressure",
   "midi_poly_pressure", "midi_clock_tick", "midi_start", "midi_stop",
   "midi_reset", "midi_local_control_off", "midi_local_control_on",
   "midi_mode", "midi_all_notes_off", "sample_duration",
   "use_timing_guarantees", "use_arg_checks", "use_debug",
   "use_cue_logging", "use_external_synths", "use_arg_bpm_scaling",
   "time_warp", "with_swing", "with_fx", "with_synth", "with_bpm",
   "with_bpm_mul"]

/-- Characterisation of a plain source line whose leading word is not a
recognised directive: nonempty after trimming and comment-stripping, not a
full-line comment, no `Time.now`, no `=` (so it is not an assignment), not
a block opener, no trailing `if`/`unless` conditional, and a leading word
outside the `parse_line` dispatch table. -/
def plain_unrecognized_line (code : String) : Prop :=
  let line := strip_inline_comment (trim_chars code.toList)
  line ≠ [] ∧
  line.getD 0 ' ' ≠ '#' ∧
  contains_sub "Time.now".toList line = false ∧
  find_char_idx '=' line = none ∧
  is_block_opener line = false ∧
  find_trailing_if_idx line = none ∧
  find_trailing_unless_idx line = none ∧
  String.mk ((split_ws line).headD []) ∉ parse_line_heads

/-- Sample names visited by `preload_samples`, in traversal order
(mirrors `collect_sample_names` in lib.rs restricted to one visit per
loop body, which is what `preload_samples` does). -/
def sample_names_of : List ParsedCommand → List String
  | [] => []
  | c :: rest =>
    match c with
    | .PlaySample name _ _ _ => name :: sample_names_of rest
    | .Loop _ body _ => sample_names_of body ++ sample_names_of rest
    | .WithFx _ _ body => sample_names_of body ++ sample_names_of rest
    | .TimesLoop _ body => sample_names_of body ++ sample_names_of rest
    | _ => sample_names_of rest
termination_by l => sizeOf l
decreasing_by all_goals (simp_wf <;> omega)

instance (code : String) : Decidable (plain_unrecognized_line code) := by
  unfold plain_unrecognized_line
  infer_instance

instance : IsTotal (ℚ × AudioCommand) (fun a b => a.1 ≤ b.1) :=
  ⟨fun a b => le_total a.1 b.1⟩

instance : IsTrans (ℚ × AudioCommand) (fun a b => a.1 ≤ b.1) :=
  ⟨fun _ _ _ hab hbc => le_trans hab hbc⟩

/- ────────────────────────────────────────────────────────────────────────
   Theorems
   ──────────────────────────────────────────────────────────────────────── -/

/-- Evaluation rule: lowering an empty command list is the identity. -/
theorem ctal_nil (st : LowerState) : commands_to_audio_list [] st = st := by
  simp [commands_to_audio_list]

/-- Evaluation rule: a `Stop` command breaks out of the lowering walk. -/
theorem ctal_stop (rest : List ParsedCommand) (st : LowerState) :
    commands_to_audio_list (.Stop :: rest) st = st := by
  simp [commands_to_audio_list]

/-- Evaluation rule: the lowering walk steps over a `Sleep` head. -/
theorem ctal_sleep (b : ℚ) (rest : List ParsedCommand) (st : LowerState) :
    commands_to_audio_list (.Sleep b :: rest) st =
      commands_to_audio_list rest (commands_to_audio_cmd (.Sleep b) st) := by
  simp [commands_to_audio_list]

/-- Evaluation rule: the lowering walk steps over a `PlaySample` head. -/
theorem ctal_sample (nm : String) (r a p : ℚ) (rest : List ParsedCommand)
    (st : LowerState) :
    commands_to_audio_list (.PlaySample nm r a p :: rest) st =
      commands_to_audio_list rest
        (commands_to_audio_cmd (.PlaySample nm r a p) st) := by
  simp [commands_to_audio_list]

/-- Evaluation rule: the lowering walk steps over a `Loop` head. -/
theorem ctal_loop (nm : String) (body : List ParsedCommand) (par : Bool)
    (rest : List ParsedCommand) (st : LowerState) :
    commands_to_audio_list (.Loop nm body par :: rest) st =
      commands_to_audio_list rest
        (commands_to_audio_cmd (.Loop nm body par) st) := by
  simp [commands_to_audio_list]

/-- Evaluation rule: one `Sleep` advances `time_offset` by
`beats * beat_duration`. -/
theorem ctac_sleep (b : ℚ) (st : LowerState) :
    commands_to_audio_cmd (.Sleep b) st =
      { st with time_offset := st.time_offset + b * st.beat_duration } := by
  simp [commands_to_audio_cmd]

/-- Evaluation rule: one `PlaySample` appends a sample event at the current
`time_offset`. -/
theorem ctac_sample (nm : String) (r a p : ℚ) (st : LowerState) :
    commands_to_audio_cmd (.PlaySample nm r a p) st =
      { st with result := st.result ++
          [(st.time_offset, .PlaySample [] 44100 a r p)] } := by
  simp [commands_to_audio_cmd]

/-- Evaluation rule: a parallel `Loop` runs `run_iters` on the lowered body
and keeps the outer `time_offset`. -/
theorem ctac_loop_par (nm : String) (body : List ParsedCommand)
    (st : LowerState) :
    commands_to_audio_cmd (.Loop nm body true) st =
      { st with result :=
          (run_iters
            (commands_to_audio_list body
              (init_lower_state st.current_bpm)).result
            (commands_to_duration body st.current_bpm)
            (if body.any ParsedCommand.isStop then 1 else 500)
            (st.result, st.time_offset)).1 } := by
  simp [commands_to_audio_cmd]

/-- C1: a parallel loop (`live_loop` / `in_thread`) leaves the outer
`time_offset` unchanged, the first event emitted after the loop carries
the pre-loop `time_offset`, and the loop contributes 0 to the enclosing
sequence's duration. -/
theorem c1_parallel_loop (nm : String) (body : List ParsedCommand)
    (st : LowerState)
    (h : 0 < commands_to_duration body st.current_bpm) :
    (commands_to_audio_cmd (.Loop nm body true) st).time_offset =
      st.time_offset ∧
    (∀ (sname : String) (r a p : ℚ),
      (commands_to_audio_cmd (.PlaySample sname r a p)
          (commands_to_audio_cmd (.Loop nm body true) st)).result =
        (commands_to_audio_cmd (.Loop nm body true) st).result ++
          [(st.time_offset, .PlaySample [] 44100 a r p)]) ∧
    (∀ (rest : List ParsedCommand) (bpm : ℚ),
      commands_to_duration (.Loop nm body true :: rest) bpm =
        commands_to_duration rest bpm) := by
  refine ⟨?_, ?_, ?_⟩
  · simp [commands_to_audio_cmd]
  · intro sname r a p
    simp [commands_to_audio_cmd]
  · intro rest bpm
    simp [commands_to_duration]

/-- C1 witness: a concrete parallel loop with body duration 1 s. -/
theorem c1_witness :
    0 < commands_to_duration [.Sleep 1] (init_lower_state 60).current_bpm ∧
    (commands_to_audio_cmd (.Loop "a" [.Sleep 1] true)
        (init_lower_state 60)).time_offset =
      (init_lower_state 60).time_offset :=
  ⟨by simp [commands_to_duration, init_lower_state],
   (c1_parallel_loop "a" [.Sleep 1] (init_lower_state 60)
      (by simp [commands_to_duration, init_lower_state])).1⟩

/-- C2 (amended): the raw lowered list is sorted by the scheduler before
dispatch; the sorted schedule has monotonically non-decreasing
`time_offset`. -/
theorem c2_sorted_monotone (parsed : List ParsedCommand) (bpm : ℚ) :
    List.Chain' (fun a b => a.1 ≤ b.1)
      (sort_events (commands_to_audio parsed bpm)) :=
  (List.sorted_insertionSort _ _).chain'

/-- C2 counterexample: a parallel loop followed by a sample produces a
raw event list whose offsets decrease (2 s then 0 s), so the unsorted
output of `commands_to_audio` is not monotone. -/
theorem c2_counterexample :
    ¬ List.Chain' (fun a b => a.1 ≤ b.1)
      (commands_to_audio
        [.Loop "a" [.Sleep 2, .PlaySample "bd" 1 1 0, .Stop] true,
         .PlaySample "sn" 1 1 0] 60) := by
  have h0 : init_lower_state 60 =
      ⟨[], 0, 60, 1, 0, 0, 0, 0, 20000, 20⟩ := by
    rw [init_lower_state]
    norm_num
  have h1 : commands_to_audio_cmd (.Sleep 2)
      ⟨[], 0, 60, 1, 0, 0, 0, 0, 20000, 20⟩ =
      ⟨[], 2, 60, 1, 0, 0, 0, 0, 20000, 20⟩ := by
    rw [ctac_sleep]
    norm_num
  have h2 : commands_to_audio_cmd (.PlaySample "bd" 1 1 0)
      ⟨[], 2, 60, 1, 0, 0, 0, 0, 20000, 20⟩ =
      ⟨[(2, .PlaySample [] 44100 1 1 0)], 2, 60, 1, 0, 0, 0, 0, 20000, 20⟩ := by
    rw [ctac_sample]
    rfl
  have hbody : commands_to_audio_list
      [.Sleep 2, .PlaySample "bd" 1 1 0, .Stop]
      ⟨[], 0, 60, 1, 0, 0, 0, 0, 20000, 20⟩ =
      ⟨[(2, .PlaySample [] 44100 1 1 0)], 2, 60, 1, 0, 0, 0, 0, 20000, 20⟩ := by
    rw [ctal_sleep, h1, ctal_sample, h2, ctal_stop]
  have hdur : commands_to_duration
      [.Sleep 2, .PlaySample "bd" 1 1 0, .Stop] 60 = 2 := by
    simp [commands_to_duration]
  have hany : ([.Sleep 2, .PlaySample "bd" 1 1 0,
      .Stop] : List ParsedCommand).any ParsedCommand.isStop = true := rfl
  have hrun : run_iters [(2, .PlaySample [] 44100 1 1 0)] 2 1 ([], 0) =
      ([(2, .PlaySample [] 44100 1 1 0)], 2) := by
    simp [run_iters]
  have hloop : commands_to_audio_cmd
      (.Loop "a" [.Sleep 2, .PlaySample "bd" 1 1 0, .Stop] true)
      ⟨[], 0, 60, 1, 0, 0, 0, 0, 20000, 20⟩ =
      ⟨[(2, .PlaySample [] 44100 1 1 0)], 0, 60, 1, 0, 0, 0, 0, 20000, 20⟩ := by
    rw [ctac_loop_par]
    show ({ (⟨[], 0, 60, 1, 0, 0, 0, 0, 20000, 20⟩ : LowerState) with result :=
        (run_iters
          (commands_to_audio_list [.Sleep 2, .PlaySample "bd" 1 1 0, .Stop]
            (init_lower_state 60)).result
          (commands_to_duration [.Sleep 2, .PlaySample "bd" 1 1 0, .Stop] 60)
          (if ([.Sleep 2, .PlaySample "bd" 1 1 0,
              .Stop] : List ParsedCommand).any ParsedCommand.isStop
           then 1 else 500)
          ([], 0)).1 } : LowerState) = _
    rw [h0, hbody, hdur, hany]
    rw [if_pos rfl]
    rw [hrun]
  have h3 : commands_to_audio_cmd (.PlaySample "sn" 1 1 0)
      ⟨[(2, .PlaySample [] 44100 1 1 0)], 0, 60, 1, 0, 0, 0, 0, 20000, 20⟩ =
      ⟨[(2, .PlaySample [] 44100 1 1 0), (0, .PlaySample [] 44100 1 1 0)],
        0, 60, 1, 0, 0, 0, 0, 20000, 20⟩ := by
    rw [ctac_sample]
    rfl
  have hev : commands_to_audio
      [.Loop "a" [.Sleep 2, .PlaySample "bd" 1 1 0, .Stop] true,
       .PlaySample "sn" 1 1 0] 60 =
      [(2, .PlaySample [] 44100 1 1 0), (0, .PlaySample [] 44100 1 1 0)] := by
    rw [commands_to_audio, h0, ctal_loop, hloop, ctal_sample, h3, ctal_nil]
  rw [hev]
  intro hch
  have := List.chain'_cons.mp hch
  exact absurd this.1 (by norm_num)

/-- helper for C3: a dispatch worker emits exactly the events before the
first epoch mismatch. -/
theorem worker_dispatch_stops {α : Type} (captured : ℕ)
    (pre post : List (ℕ × α)) (observed : ℕ) (e : α)
    (hobs : observed ≠ captured) (hpre : ∀ p ∈ pre, p.1 = captured) :
    worker_dispatch captured (pre ++ (observed, e) :: post) =
      pre.map Prod.snd := by
  induction pre with
  | nil => simp [worker_dispatch, hobs]
  | cons hd tl ih =>
      have h1 : hd.1 = captured := hpre hd (by simp)
      calc worker_dispatch captured ((hd :: tl) ++ (observed, e) :: post)
          = hd.2 :: worker_dispatch captured (tl ++ (observed, e) :: post) := by
            rw [List.cons_append]
            rw [show (hd : ℕ × α) = (hd.1, hd.2) from rfl]
            simp [worker_dispatch, h1]
        _ = hd.2 :: tl.map Prod.snd := by
            rw [ih (fun p hp => hpre p (by simp [hp]))]
        _ = (hd :: tl).map Prod.snd := rfl

/-- C3 (amended): the session epoch is bumped with `wrapping_add(1)` on
the `u64` counter; below the wrap the bumped value strictly exceeds the
old one, and a worker that captured an earlier epoch stops at its first
per-event mismatch, dispatching nothing further. -/
theorem c3_session_epoch (s : ℕ) (h : s + 1 < 2 ^ 64) :
    s < bump_session s ∧
    ∀ (α : Type) (captured : ℕ) (pre post : List (ℕ × α)) (observed : ℕ)
      (e : α), observed ≠ captured → (∀ p ∈ pre, p.1 = captured) →
      worker_dispatch captured (pre ++ (observed, e) :: post) =
        pre.map Prod.snd := by
  constructor
  · have : bump_session s = s + 1 := Nat.mod_eq_of_lt h
    omega
  · intro α captured pre post observed e hobs hpre
    exact worker_dispatch_stops captured pre post observed e hobs hpre

/-- C3 witness: a concrete epoch bump and a worker trace that stops at
the first mismatching epoch. -/
theorem c3_witness :
    5 + 1 < 2 ^ 64 ∧ 5 < bump_session 5 ∧
      worker_dispatch 1 [(1, 10), (2, 20), (1, 30)] = [10] :=
  ⟨by norm_num, (c3_session_epoch 5 (by norm_num)).1,
    (c3_session_epoch 5 (by norm_num)).2 ℕ 1 [(1, 10)] [(1, 30)] 2 20
      (by decide) (by decide)⟩

/-- C3 counterexample: at `2^64 − 1` the wrapping bump returns 0, so the
epoch is not strictly increasing there. -/
theorem c3_counterexample :
    bump_session (2 ^ 64 - 1) = 0 ∧
    ¬ 2 ^ 64 - 1 < bump_session (2 ^ 64 - 1) := by
  constructor
  · show (2 ^ 64 - 1 + 1) % 2 ^ 64 = 0
    norm_num
  · intro hcon
    have : bump_session (2 ^ 64 - 1) = 0 := by
      show (2 ^ 64 - 1 + 1) % 2 ^ 64 = 0
      norm_num
    omega

/-- helper for C4: `wrap_i32` is the identity on the `i32` range. -/
theorem wrap_i32_eq (z : ℤ) (h1 : -2 ^ 31 ≤ z) (h2 : z < 2 ^ 31) :
    wrap_i32 z = z := by
  unfold wrap_i32
  omega

/-- helper for C4: invariant of the Euclid bucket loop — below `2^30`
steps none of the `i32` additions can overflow, the bucket stays in
`[0, steps)` and the count of emitted `true`s satisfies
`count · steps + bucket = start + n · pulses`. -/
theorem euclid_go_spec (p s : ℤ) (hp : 0 < p) (hps : p ≤ s)
    (hs30 : s ≤ 2 ^ 30) :
    ∀ (n : ℕ) (b : ℤ), 0 ≤ b → b < s →
      (euclid_go p s n b).1.length = n ∧
      ((euclid_go p s n b).1.count true : ℤ) * s + (euclid_go p s n b).2 =
        b + n * p ∧
      0 ≤ (euclid_go p s n b).2 ∧ (euclid_go p s n b).2 < s := by
  intro n
  induction n with
  | zero => intro b hb1 hb2; simp [euclid_go]; omega
  | succ m ih =>
      intro b hb1 hb2
      have hw : wrap_i32 (b + p) = b + p :=
        wrap_i32_eq _ (by omega) (by omega)
      by_cases hc : s ≤ b + p
      · have hw2 : wrap_i32 (b + p - s) = b + p - s :=
          wrap_i32_eq _ (by omega) (by omega)
        have h1 : 0 ≤ b + p - s := by omega
        have h2 : b + p - s < s := by omega
        obtain ⟨ihl, ihc, ihb1, ihb2⟩ := ih (b + p - s) h1 h2
        simp only [euclid_go, hw, hw2, if_pos hc]
        refine ⟨by simp [ihl], ?_, ihb1, ihb2⟩
        simp only [List.count_cons_self]
        push_cast
        have hmul : ((m : ℤ) + 1) * p = (m : ℤ) * p + p := by ring
        have hmul2 : ∀ k : ℤ, (k + 1) * s = k * s + s := fun k => by ring
        rw [hmul, hmul2]
        omega
      · have h1 : 0 ≤ b + p := by omega
        have h2 : b + p < s := by omega
        obtain ⟨ihl, ihc, ihb1, ihb2⟩ := ih (b + p) h1 h2
        simp only [euclid_go, hw, if_neg hc]
        refine ⟨by simp [ihl], ?_, ihb1, ihb2⟩
        rw [List.count_cons_of_ne (by simp)]
        push_cast
        have hmul : ((m : ℤ) + 1) * p = (m : ℤ) * p + p := by ring
        rw [hmul]
        omega

/-- C4 (amended): `spread(p, s)` returns exactly `s` booleans containing
exactly `min p s` trues, for `s ≤ 2^30` — below that bound the `i32`
bucket additions of the source cannot overflow (for larger `s` the
`bucket += pulses` add can exceed `i32::MAX`). -/
theorem c4_spread_pattern (p s : ℕ) (hs : s ≤ 2 ^ 30) :
    (euclidean_rhythm p s).length = s ∧
    (euclidean_rhythm p s).count true = min p s := by
  unfold euclidean_rhythm
  by_cases h0 : s = 0
  · subst h0; simp
  by_cases h1 : s ≤ p
  · rw [if_neg h0, if_pos h1]
    simp [List.count_replicate, Nat.min_eq_right h1]
  by_cases h2 : p = 0
  · subst h2
    rw [if_neg h0, if_neg h1, if_pos rfl]
    simp [List.count_replicate]
  · rw [if_neg h0, if_neg h1, if_neg h2]
    have hp : 0 < p := Nat.pos_of_ne_zero h2
    have hps : p < s := by omega
    have hcastp : usize_as_i32 p = (p : ℤ) := by
      unfold usize_as_i32
      rw [if_pos (by omega)]
      omega
    have hcasts : usize_as_i32 s = (s : ℤ) := by
      unfold usize_as_i32
      rw [if_pos (by omega)]
      omega
    rw [hcastp, hcasts]
    have hs0 : (0 : ℤ) < (s : ℤ) := by exact_mod_cast Nat.pos_of_ne_zero h0
    obtain ⟨hl, hc, hb1, hb2⟩ :=
      euclid_go_spec (p : ℤ) (s : ℤ) (by exact_mod_cast hp)
        (by exact_mod_cast hps.le) (by exact_mod_cast hs) s 0 le_rfl hs0
    refine ⟨hl, ?_⟩
    have hmin : min p s = p := Nat.min_eq_left hps.le
    rw [hmin]
    set k := (euclid_go (p : ℤ) (s : ℤ) s 0).1.count true with hk
    have : (k : ℤ) * s + (euclid_go (p : ℤ) (s : ℤ) s 0).2 = 0 + s * p := by
      rw [hc]
    have : (k : ℤ) = p := by nlinarith [hs0]
    exact_mod_cast this

/-- C4 counterexample: `spread(2, 1)` has one `true`, not two — the
pattern cannot contain `p` trues when `p > s`. -/
theorem c4_counterexample :
    euclidean_rhythm 2 1 = [true] ∧
    (euclidean_rhythm 2 1).count true ≠ 2 := by
  decide

/-- C4 witness: `spread(5, 3)` at concrete inputs. -/
theorem c4_witness :
    3 ≤ 2 ^ 30 ∧ (euclidean_rhythm 5 3).length = 3 ∧
      (euclidean_rhythm 5 3).count true = min 5 3 :=
  ⟨by norm_num, (c4_spread_pattern 5 3 (by norm_num)).1,
    (c4_spread_pattern 5 3 (by norm_num)).2⟩

/-- C5: with attack = decay = release = 0 and sustain-level = 1, the
envelope value is 1 while `elapsed/sample_rate < total/sample_rate` and
0 from that point on (the division by the zero release produces IEEE
NaN/∞, which `max` and the final product collapse to 0). -/
theorem c5_zero_adsr_envelope (sr : ℚ) (elapsed total : ℕ) (hsr : 0 < sr) :
    ((elapsed : ℚ) / sr < (total : ℚ) / sr →
      envelope_value ⟨0, 0, 1, 0⟩ sr elapsed total = .fin 1) ∧
    ((total : ℚ) / sr ≤ (elapsed : ℚ) / sr →
      envelope_value ⟨0, 0, 1, 0⟩ sr elapsed total = .fin 0) := by
  have hsrne : sr ≠ 0 := ne_of_gt hsr
  have he : (0 : ℚ) ≤ (elapsed : ℚ) / sr :=
    div_nonneg (Nat.cast_nonneg _) hsr.le
  have hdiv1 : F32.div (.fin (elapsed : ℚ)) (.fin sr) =
      .fin ((elapsed : ℚ) / sr) := by simp [F32.div, hsrne]
  have hdiv2 : F32.div (.fin (total : ℚ)) (.fin sr) =
      .fin ((total : ℚ) / sr) := by simp [F32.div, hsrne]
  have hne1 : ¬ (elapsed : ℚ) / sr < 0 := not_lt.mpr he
  constructor <;> intro h
  · simp only [envelope_value, hdiv1, hdiv2, F32.sub, F32.add, F32.blt]
    norm_num [hne1, h]
  · simp only [envelope_value, hdiv1, hdiv2, F32.sub, F32.add, F32.blt]
    norm_num [hne1, not_lt.mpr h]
    by_cases heq : (elapsed : ℚ) / sr = (total : ℚ) / sr
    · simp [F32.div, F32.sub, F32.mul, F32.fmax, heq]
    · have hgt : (total : ℚ) / sr < (elapsed : ℚ) / sr :=
        lt_of_le_of_ne h (fun hc => heq hc.symm)
      have hpos : 0 < (elapsed : ℚ) / sr - (total : ℚ) / sr := by linarith
      simp [F32.div, F32.sub, F32.mul, F32.fmax, sub_eq_zero, hpos,
        ne_of_gt hgt, heq]

/-- C5 witness: the degenerate envelope at 10 of 20 samples (inside) and
30 of 20 samples (past the end). -/
theorem c5_witness :
    (0 : ℚ) < 44100 ∧ (10 : ℚ) / 44100 < (20 : ℚ) / 44100 ∧
    envelope_value ⟨0, 0, 1, 0⟩ 44100 10 20 = .fin 1 ∧
    envelope_value ⟨0, 0, 1, 0⟩ 44100 30 20 = .fin 0 :=
  ⟨by norm_num, by norm_num,
    (c5_zero_adsr_envelope 44100 10 20 (by norm_num)).1 (by norm_num),
    (c5_zero_adsr_envelope 44100 30 20 (by norm_num)).2 (by norm_num)⟩

/-- helper for C6: folding FX parameters commutes with changing the
`result` field. -/
theorem fold_fx_params_result (st : LowerState)
    (res : List (ℚ × AudioCommand)) (ft : String)
    (ps : List (String × ℚ)) :
    fold_fx_params { st with result := res } ft ps =
      { fold_fx_params st ft ps with result := res } := by
  unfold fold_fx_params
  split <;> rfl

/-- helper for C6: folding FX parameters only touches the effect fields. -/
theorem fold_fx_params_untouched (st : LowerState) (ft : String)
    (ps : List (String × ℚ)) :
    (fold_fx_params st ft ps).result = st.result ∧
    (fold_fx_params st ft ps).time_offset = st.time_offset ∧
    (fold_fx_params st ft ps).current_bpm = st.current_bpm := by
  unfold fold_fx_params
  split <;> simp

/-- C6: a `with_fx` block is scoped — the lowering emits an `FxStart`
bracket and a `SetEffect` with the folded block parameters at entry, and
at block exit (entry time plus the body's sequential duration) an `FxEnd`
followed by a second `SetEffect` whose six fields equal the effect state
in force immediately before the block; the lowering state's six effect
fields are restored, so events lowered after the block see the pre-block
parameters. -/
theorem c6_with_fx_scoped (ft : String) (ps : List (String × ℚ))
    (body : List ParsedCommand) (st : LowerState) :
    ∃ innerEvents,
      (commands_to_audio_cmd (.WithFx ft ps body) st).result =
        st.result ++
          [(st.time_offset, .FxStart ft ps),
           (st.time_offset, .SetEffect
              (fold_fx_params st ft ps).current_reverb
              (fold_fx_params st ft ps).current_delay_time
              (fold_fx_params st ft ps).current_delay_feedback
              (fold_fx_params st ft ps).current_distortion
              (fold_fx_params st ft ps).current_lpf
              (fold_fx_params st ft ps).current_hpf)] ++
          innerEvents ++
          [(st.time_offset + commands_to_duration body st.current_bpm,
              .FxEnd),
           (st.time_offset + commands_to_duration body st.current_bpm,
              .SetEffect st.current_reverb st.current_delay_time
                st.current_delay_feedback st.current_distortion
                st.current_lpf st.current_hpf)] ∧
      (commands_to_audio_cmd (.WithFx ft ps body) st).current_reverb =
        st.current_reverb ∧
      (commands_to_audio_cmd (.WithFx ft ps body) st).current_delay_time =
        st.current_delay_time ∧
      (commands_to_audio_cmd (.WithFx ft ps body) st).current_delay_feedback =
        st.current_delay_feedback ∧
      (commands_to_audio_cmd (.WithFx ft ps body) st).current_distortion =
        st.current_distortion ∧
      (commands_to_audio_cmd (.WithFx ft ps body) st).current_lpf =
        st.current_lpf ∧
      (commands_to_audio_cmd (.WithFx ft ps body) st).current_hpf =
        st.current_hpf ∧
      (commands_to_audio_cmd (.WithFx ft ps body) st).time_offset =
        st.time_offset + commands_to_duration body st.current_bpm := by
  refine ⟨((commands_to_audio_list body
      (init_lower_state st.current_bpm)).result).map
        (fun p => (st.time_offset + p.1, p.2)), ?_⟩
  simp only [commands_to_audio_cmd, fold_fx_params_result]
  simp [fold_fx_params_untouched]

/-- C9: a `PlayNote` whose frequency is not strictly positive emits no
timed event and does not advance `time_offset`; the rest symbols `:r`
and `:rest` parse to frequency 0. -/
theorem c9_rest_notes (st : LowerState) (synth : OscillatorType)
    (freq amp dur pan : ℚ) (env : Envelope) (params : List (String × ℚ))
    (h : freq ≤ 0) :
    commands_to_audio_cmd (.PlayNote synth freq amp dur pan env params) st =
      st ∧
    parse_note_value ":r" = some 0 ∧ parse_note_value ":rest" = some 0 := by
  refine ⟨?_, ?_, ?_⟩
  · simp [commands_to_audio_cmd, not_lt.mpr h]
  · rfl
  · rfl

/-- C9 witness: a rest note (frequency 0) leaves the lowering state
unchanged. -/
theorem c9_witness :
    (0 : ℚ) ≤ 0 ∧
    commands_to_audio_cmd
        (.PlayNote .Sine 0 (1/2) (1/2) 0 ⟨1/100, 1/10, 7/10, 3/10⟩ [])
        (init_lower_state 120) = init_lower_state 120 ∧
    parse_note_value ":r" = some 0 :=
  ⟨le_refl 0,
   (c9_rest_notes (init_lower_state 120) .Sine 0 (1/2) (1/2) 0
      ⟨1/100, 1/10, 7/10, 3/10⟩ [] (le_refl 0)).1,
   (c9_rest_notes (init_lower_state 120) .Sine 0 (1/2) (1/2) 0
      ⟨1/100, 1/10, 7/10, 3/10⟩ [] (le_refl 0)).2.1⟩

/-- C10: for any envelope with non-negative attack/decay/release and
sustain-level in `[0, 1]`, the envelope value is a finite number in
`[0, 1]` for all `(elapsed, total)` — in particular never negative and
never above 1, with the zero-release NaN/∞ path collapsing to 0. -/
theorem c10_envelope_in_unit_range (env : Envelope) (sr : ℚ)
    (elapsed total : ℕ) (hsr : 0 < sr) (ha : 0 ≤ env.attack)
    (hd : 0 ≤ env.decay) (hr : 0 ≤ env.release) (hs0 : 0 ≤ env.sustain)
    (hs1 : env.sustain ≤ 1) :
    ∃ x, envelope_value env sr elapsed total = .fin x ∧ 0 ≤ x ∧ x ≤ 1 := by
  have hsrne : sr ≠ 0 := ne_of_gt hsr
  have ht : (0 : ℚ) ≤ (elapsed : ℚ) / sr :=
    div_nonneg (Nat.cast_nonneg _) hsr.le
  have hdiv1 : F32.div (.fin (elapsed : ℚ)) (.fin sr) =
      .fin ((elapsed : ℚ) / sr) := by simp [F32.div, hsrne]
  have hdiv2 : F32.div (.fin (total : ℚ)) (.fin sr) =
      .fin ((total : ℚ) / sr) := by simp [F32.div, hsrne]
  set e := (elapsed : ℚ) / sr with hedef
  set T := (total : ℚ) / sr with hTdef
  simp only [envelope_value, hdiv1, hdiv2, F32.sub, F32.add, F32.blt,
    decide_eq_true_eq]
  by_cases h1 : e < env.attack
  · have hatt : 0 < env.attack := lt_of_le_of_lt ht h1
    rw [if_pos h1]
    refine ⟨e / env.attack, by simp [F32.div, ne_of_gt hatt], ?_, ?_⟩
    · exact div_nonneg ht hatt.le
    · exact ((div_lt_one hatt).mpr h1).le
  · rw [if_neg h1]
    by_cases h2 : e < env.attack + env.decay
    · have hdec : 0 < env.decay := by
        have := not_lt.mp h1
        linarith
      rw [if_pos h2]
      have hdt0 : 0 ≤ (e - env.attack) / env.decay :=
        div_nonneg (by linarith [not_lt.mp h1]) hdec.le
      have hdt1 : (e - env.attack) / env.decay < 1 :=
        (div_lt_one hdec).mpr (by linarith)
      refine ⟨1 - (1 - env.sustain) * ((e - env.attack) / env.decay),
        by simp [F32.div, F32.mul, F32.sub, ne_of_gt hdec], ?_, ?_⟩
      · have : (1 - env.sustain) * ((e - env.attack) / env.decay) ≤ 1 :=
          mul_le_one₀ (by linarith) hdt0 hdt1.le
        linarith
      · have : 0 ≤ (1 - env.sustain) * ((e - env.attack) / env.decay) :=
          mul_nonneg (by linarith) hdt0
        linarith
    · rw [if_neg h2]
      by_cases h3 : e < T - env.release
      · rw [if_pos h3]
        exact ⟨env.sustain, rfl, hs0, hs1⟩
      · rw [if_neg h3]
        have hnum : 0 ≤ e - (T - env.release) := by linarith [not_lt.mp h3]
        by_cases hrel : env.release = 0
        · by_cases hz : e - (T - env.release) = 0
          · have hz2 : e - T = 0 := by rw [hrel] at hz; linarith
            refine ⟨env.sustain * 0, ?_, by simp [hs0], by simp⟩
            simp [F32.div, F32.sub, F32.mul, F32.fmax, hrel, hz2]
          · have hpos : 0 < e - (T - env.release) :=
              lt_of_le_of_ne hnum (fun hc => hz hc.symm)
            have hTe : T < e := by rw [hrel] at hpos; linarith
            have hne : ¬ e - T = 0 := by linarith
            refine ⟨env.sustain * 0, ?_, by simp [hs0], by simp⟩
            simp [F32.div, F32.sub, F32.mul, F32.fmax, hrel, hne, hTe]
        · have hrelpos : 0 < env.release := lt_of_le_of_ne hr (Ne.symm hrel)
          have hrt : 0 ≤ (e - (T - env.release)) / env.release :=
            div_nonneg hnum hrelpos.le
          refine ⟨env.sustain *
              max (1 - (e - (T - env.release)) / env.release) 0, ?_, ?_, ?_⟩
          · simp [F32.div, F32.sub, F32.mul, F32.fmax, hrel]
          · exact mul_nonneg hs0 (le_max_right _ _)
          · exact mul_le_one₀ hs1 (le_max_right _ _)
              (max_le (by linarith) zero_le_one)

/-- C10 witness: the default envelope in its sustain region. -/
theorem c10_witness :
    envelope_value ⟨1/100, 1/10, 7/10, 3/10⟩ 44100 10000 44100 =
      .fin (7/10) ∧
    ∃ x, envelope_value ⟨1/100, 1/10, 7/10, 3/10⟩ 44100 10000 44100 =
      .fin x ∧ 0 ≤ x ∧ x ≤ 1 :=
  ⟨by norm_num [envelope_value, F32.div, F32.sub, F32.add, F32.blt,
      F32.mul, F32.fmax],
   c10_envelope_in_unit_range ⟨1/100, 1/10, 7/10, 3/10⟩ 44100 10000 44100
     (by norm_num) (by norm_num) (by norm_num) (by norm_num) (by norm_num)
     (by norm_num)⟩

set_option maxHeartbeats 2000000 in
/-- helper: an unknown head falls to the wildcard of parse_line. -/
theorem parse_line_model_unknown_head (line : List Char)
    (hif : find_trailing_if_idx line = none)
    (hunless : find_trailing_unless_idx line = none)
    (hhead : String.mk ((split_ws line).headD []) ∉ parse_line_heads) :
    parse_line_model line = .unrecognized := by
  unfold parse_line_model
  rw [hif, hunless]
  simp only [Option.isSome_none, Bool.false_eq_true, if_false]
  by_cases hp : (split_ws line).isEmpty
  · rw [if_pos hp]
  · rw [if_neg hp]
    generalize String.mk ((split_ws line).headD []) = s at hhead ⊢
    have hne : ∀ t ∈ parse_line_heads, s ≠ t :=
      fun t ht hc => hhead (hc ▸ ht)
    have e1 : (s = "play") = False := eq_false (hne _ (by decide))
    have e2 : (s = "play_pattern_timed") = False := eq_false (hne _ (by decide))
    have e3 : (s = "play_pattern") = False := eq_false (hne _ (by decide))
    have e4 : (s = "sample") = False := eq_false (hne _ (by decide))
    have e5 : (s = "sleep") = False := eq_false (hne _ (by decide))
    have e6 : (s = "wait") = False := eq_false (hne _ (by decide))
    have e7 : (s = "use_bpm") = False := eq_false (hne _ (by decide))
    have e8 : (s = "set_volume!") = False := eq_false (hne _ (by decide))
    have e9 : (s = "set_volume") = False := eq_false (hne _ (by decide))
    have e10 : (s = "use_synth") = False := eq_false (hne _ (by decide))
    have e11 : (s = "synth") = False := eq_false (hne _ (by decide))
    have e12 : (s = "stop") = False := eq_false (hne _ (by decide))
    have e13 : (s = "puts") = False := eq_false (hne _ (by decide))
    have e14 : (s = "print") = False := eq_false (hne _ (by decide))
    have e15 : (s = "log") = False := eq_false (hne _ (by decide))
    have e16 : (s = "cue") = False := eq_false (hne _ (by decide))
    have e17 : (s = "sync") = False := eq_false (hne _ (by decide))
    have e18 : (s = "at") = False := eq_false (hne _ (by decide))
    have e19 : (s = "use_random_seed") = False := eq_false (hne _ (by decide))
    have e20 : (s = "use_random_source") = False := eq_false (hne _ (by decide))
    have e21 : (s = "use_synth_defaults") = False := eq_false (hne _ (by decide))
    have e22 : (s = "use_sample_defaults") = False := eq_false (hne _ (by decide))
    have e23 : (s = "use_merged_synth_defaults") = False := eq_false (hne _ (by decide))
    have e24 : (s = "use_merged_sample_defaults") = False := eq_false (hne _ (by decide))
    have e25 : (s = "tick") = False := eq_false (hne _ (by decide))
    have e26 : (s = "look") = False := eq_false (hne _ (by decide))
    have e27 : (s = "set") = False := eq_false (hne _ (by decide))
    have e28 : (s = "get") = False := eq_false (hne _ (by decide))
    have e29 : (s = "control") = False := eq_false (hne _ (by decide))
    have e30 : (s = "midi") = False := eq_false (hne _ (by decide))
    have e31 : (s = "midi_note_on") = False := eq_false (hne _ (by decide))
    have e32 : (s = "midi_note_off") = False := eq_false (hne _ (by decide))
    have e33 : (s = "midi_cc") = False := eq_false (hne _ (by decide))
    have e34 : (s = "midi_raw") = False := eq_false (hne _ (by decide))
    have e35 : (s = "midi_pitch_bend") = False := eq_false (hne _ (by decide))
    have e36 : (s = "midi_channel_pressure") = False := eq_false (hne _ (by decide))
    have e37 : (s = "midi_poly_pressure") = False := eq_false (hne _ (by decide))
    have e38 : (s = "midi_clock_tick") = False := eq_false (hne _ (by decide))
    have e39 : (s = "midi_start") = False := eq_false (hne _ (by decide))
    have e40 : (s = "midi_stop") = False := eq_false (hne _ (by decide))
    have e41 : (s = "midi_reset") = False := eq_false (hne _ (by decide))
    have e42 : (s = "midi_local_control_off") = False := eq_false (hne _ (by decide))
    have e43 : (s = "midi_local_control_on") = False := eq_false (hne _ (by decide))
    have e44 : (s = "midi_mode") = False := eq_false (hne _ (by decide))
    have e45 : (s = "midi_all_notes_off") = False := eq_false (hne _ (by decide))
    have e46 : (s = "sample_duration") = False := eq_false (hne _ (by decide))
    have e47 : (s = "use_timing_guarantees") = False := eq_false (hne _ (by decide))
    have e48 : (s = "use_arg_checks") = False := eq_false (hne _ (by decide))
    have e49 : (s = "use_debug") = False := eq_false (hne _ (by decide))
    have e50 : (s = "use_cue_logging") = False := eq_false (hne _ (by decide))
    have e51 : (s = "use_external_synths") = False := eq_false (hne _ (by decide))
    have e52 : (s = "use_arg_bpm_scaling") = False := eq_false (hne _ (by decide))
    have e53 : (s = "time_warp") = False := eq_false (hne _ (by decide))
    have e54 : (s = "with_swing") = False := eq_false (hne _ (by decide))
    have e55 : (s = "with_fx") = False := eq_false (hne _ (by decide))
    have e56 : (s = "with_synth") = False := eq_false (hne _ (by decide))
    have e57 : (s = "with_bpm") = False := eq_false (hne _ (by decide))
    have e58 : (s = "with_bpm_mul") = False := eq_false (hne _ (by decide))
    simp only [e1, e2, e3, e4, e5, e6, e7, e8, e9, e10, e11, e12, e13, e14, e15, e16, e17, e18, e19, e20, e21, e22, e23, e24, e25, e26, e27, e28, e29, e30, e31, e32, e33, e34, e35, e36, e37, e38, e39, e40, e41, e42, e43, e44, e45, e46, e47, e48, e49, e50, e51, e52, e53, e54, e55, e56, e57, e58, or_self, or_false, false_or, if_false]

/-- C7 (amended): a plain line whose leading word is not a recognised
directive parses without error and contributes no command (it is silently
skipped, not turned into a Comment); every synth name outside the known
table maps to the sine oscillator; every unknown scale or chord name
resolves to the major scale / major triad intervals. -/
theorem c7_forgiving_fallbacks (code sname scname ccname : String)
    (hline : plain_unrecognized_line code)
    (hs : sname ∉ known_synth_names)
    (hsc : scname ∉ known_scale_names)
    (hcc : ccname ∉ known_chord_names) :
    parse_plain_line code = .ok [] ∧
    parse_synth_name sname = .Sine ∧
    scale_intervals scname = [0, 2, 4, 5, 7, 9, 11] ∧
    chord_intervals ccname = [0, 4, 7] := by
  obtain ⟨hne, hhash, htime, heq, hblock, hif, hunless, hhead⟩ := hline
  refine ⟨?_, ?_, ?_, ?_⟩
  · unfold parse_plain_line parse_plain_line_core
    have hassign : try_parse_assignment
        (strip_inline_comment (trim_chars code.toList)) = none := by
      unfold try_parse_assignment
      rw [heq]
    have hempty : (strip_inline_comment (trim_chars code.toList)).isEmpty =
        false := by
      cases hc : strip_inline_comment (trim_chars code.toList) with
      | nil => exact absurd hc hne
      | cons a b => rfl
    have hh : ((strip_inline_comment (trim_chars code.toList)).getD 0 ' ' ==
        '#') = false := beq_eq_false_iff_ne.mpr hhash
    rw [hempty, hh, htime, hassign, hblock]
    simp only [Bool.false_eq_true, if_false, Option.isSome_none]
    rw [parse_line_model_unknown_head _ hif hunless hhead]
  · unfold parse_synth_name
    have hne : ∀ t ∈ known_synth_names, sname ≠ t :=
      fun t ht hc => hs (hc ▸ ht)
    have e1 : (sname = "sine") = False := eq_false (hne _ (by decide))
    have e2 : (sname = "beep") = False := eq_false (hne _ (by decide))
    have e3 : (sname = "saw") = False := eq_false (hne _ (by decide))
    have e4 : (sname = "square") = False := eq_false (hne _ (by decide))
    have e5 : (sname = "tri") = False := eq_false (hne _ (by decide))
    have e6 : (sname = "triangle") = False := eq_false (hne _ (by decide))
    have e7 : (sname = "noise") = False := eq_false (hne _ (by decide))
    have e8 : (sname = "pulse") = False := eq_false (hne _ (by decide))
    have e9 : (sname = "supersaw") = False := eq_false (hne _ (by decide))
    have e10 : (sname = "super_saw") = False := eq_false (hne _ (by decide))
    have e11 : (sname = "dsaw") = False := eq_false (hne _ (by decide))
    have e12 : (sname = "dpulse") = False := eq_false (hne _ (by decide))
    have e13 : (sname = "dtri") = False := eq_false (hne _ (by decide))
    have e14 : (sname = "fm") = False := eq_false (hne _ (by decide))
    have e15 : (sname = "mod_fm") = False := eq_false (hne _ (by decide))
    have e16 : (sname = "mod_sine") = False := eq_false (hne _ (by decide))
    have e17 : (sname = "mod_saw") = False := eq_false (hne _ (by decide))
    have e18 : (sname = "mod_dsaw") = False := eq_false (hne _ (by decide))
    have e19 : (sname = "mod_tri") = False := eq_false (hne _ (by decide))
    have e20 : (sname = "mod_pulse") = False := eq_false (hne _ (by decide))
    have e21 : (sname = "tb303") = False := eq_false (hne _ (by decide))
    have e22 : (sname = "prophet") = False := eq_false (hne _ (by decide))
    have e23 : (sname = "zawa") = False := eq_false (hne _ (by decide))
    have e24 : (sname = "blade") = False := eq_false (hne _ (by decide))
    have e25 : (sname = "tech_saws") = False := eq_false (hne _ (by decide))
    have e26 : (sname = "hoover") = False := eq_false (hne _ (by decide))
    have e27 : (sname = "pluck") = False := eq_false (hne _ (by decide))
    have e28 : (sname = "piano") = False := eq_false (hne _ (by decide))
    have e29 : (sname = "pretty_bell") = False := eq_false (hne _ (by decide))
    have e30 : (sname = "dull_bell") = False := eq_false (hne _ (by decide))
    have e31 : (sname = "hollow") = False := eq_false (hne _ (by decide))
    have e32 : (sname = "dark_ambience") = False := eq_false (hne _ (by decide))
    have e33 : (sname = "growl") = False := eq_false (hne _ (by decide))
    have e34 : (sname = "chiplead") = False := eq_false (hne _ (by decide))
    have e35 : (sname = "chip_lead") = False := eq_false (hne _ (by decide))
    have e36 : (sname = "chipbass") = False := eq_false (hne _ (by decide))
    have e37 : (sname = "chip_bass") = False := eq_false (hne _ (by decide))
    have e38 : (sname = "chipnoise") = False := eq_false (hne _ (by decide))
    have e39 : (sname = "chip_noise") = False := eq_false (hne _ (by decide))
    have e40 : (sname = "bnoise") = False := eq_false (hne _ (by decide))
    have e41 : (sname = "brown_noise") = False := eq_false (hne _ (by decide))
    have e42 : (sname = "pnoise") = False := eq_false (hne _ (by decide))
    have e43 : (sname = "pink_noise") = False := eq_false (hne _ (by decide))
    have e44 : (sname = "gnoise") = False := eq_false (hne _ (by decide))
    have e45 : (sname = "grey_noise") = False := eq_false (hne _ (by decide))
    have e46 : (sname = "cnoise") = False := eq_false (hne _ (by decide))
    have e47 : (sname = "clip_noise") = False := eq_false (hne _ (by decide))
    have e48 : (sname = "subpulse") = False := eq_false (hne _ (by decide))
    have e49 : (sname = "sub_pulse") = False := eq_false (hne _ (by decide))
    have e50 : (sname = "bass") = False := eq_false (hne _ (by decide))
    have e51 : (sname = "lead") = False := eq_false (hne _ (by decide))
    have e52 : (sname = "pad") = False := eq_false (hne _ (by decide))
    have e53 : (sname = "winwood_lead") = False := eq_false (hne _ (by decide))
    simp only [e1, e2, e3, e4, e5, e6, e7, e8, e9, e10, e11, e12, e13, e14, e15, e16, e17, e18, e19, e20, e21, e22, e23, e24, e25, e26, e27, e28, e29, e30, e31, e32, e33, e34, e35, e36, e37, e38, e39, e40, e41, e42, e43, e44, e45, e46, e47, e48, e49, e50, e51, e52, e53, or_self, or_false, false_or, if_false]
  · unfold scale_intervals
    have hne : ∀ t ∈ known_scale_names, scname ≠ t :=
      fun t ht hc => hsc (hc ▸ ht)
    have e1 : (scname = "major") = False := eq_false (hne _ (by decide))
    have e2 : (scname = "ionian") = False := eq_false (hne _ (by decide))
    have e3 : (scname = "minor") = False := eq_false (hne _ (by decide))
    have e4 : (scname = "aeolian") = False := eq_false (hne _ (by decide))
    have e5 : (scname = "natural_minor") = False := eq_false (hne _ (by decide))
    have e6 : (scname = "harmonic_minor") = False := eq_false (hne _ (by decide))
    have e7 : (scname = "melodic_minor") = False := eq_false (hne _ (by decide))
    have e8 : (scname = "melodic_minor_asc") = False := eq_false (hne _ (by decide))
    have e9 : (scname = "dorian") = False := eq_false (hne _ (by decide))
    have e10 : (scname = "phrygian") = False := eq_false (hne _ (by decide))
    have e11 : (scname = "lydian") = False := eq_false (hne _ (by decide))
    have e12 : (scname = "mixolydian") = False := eq_false (hne _ (by decide))
    have e13 : (scname = "locrian") = False := eq_false (hne _ (by decide))
    have e14 : (scname = "minor_pentatonic") = False := eq_false (hne _ (by decide))
    have e15 : (scname = "minor_penta") = False := eq_false (hne _ (by decide))
    have e16 : (scname = "major_pentatonic") = False := eq_false (hne _ (by decide))
    have e17 : (scname = "major_penta") = False := eq_false (hne _ (by decide))
    have e18 : (scname = "pentatonic") = False := eq_false (hne _ (by decide))
    have e19 : (scname = "blues") = False := eq_false (hne _ (by decide))
    have e20 : (scname = "blues_minor") = False := eq_false (hne _ (by decide))
    have e21 : (scname = "blues_major") = False := eq_false (hne _ (by decide))
    have e22 : (scname = "whole_tone") = False := eq_false (hne _ (by decide))
    have e23 : (scname = "whole") = False := eq_false (hne _ (by decide))
    have e24 : (scname = "chromatic") = False := eq_false (hne _ (by decide))
    have e25 : (scname = "diminished") = False := eq_false (hne _ (by decide))
    have e26 : (scname = "octatonic") = False := eq_false (hne _ (by decide))
    have e27 : (scname = "hex_major6") = False := eq_false (hne _ (by decide))
    have e28 : (scname = "hex_dorian") = False := eq_false (hne _ (by decide))
    have e29 : (scname = "hex_phrygian") = False := eq_false (hne _ (by decide))
    have e30 : (scname = "hex_major7") = False := eq_false (hne _ (by decide))
    have e31 : (scname = "hex_sus") = False := eq_false (hne _ (by decide))
    have e32 : (scname = "hex_aeolian") = False := eq_false (hne _ (by decide))
    have e33 : (scname = "hungarian_minor") = False := eq_false (hne _ (by decide))
    have e34 : (scname = "diatonic") = False := eq_false (hne _ (by decide))
    have e35 : (scname = "hirajoshi") = False := eq_false (hne _ (by decide))
    have e36 : (scname = "iwato") = False := eq_false (hne _ (by decide))
    have e37 : (scname = "kumoi") = False := eq_false (hne _ (by decide))
    have e38 : (scname = "in_sen") = False := eq_false (hne _ (by decide))
    have e39 : (scname = "in") = False := eq_false (hne _ (by decide))
    have e40 : (scname = "yo") = False := eq_false (hne _ (by decide))
    have e41 : (scname = "pelog") = False := eq_false (hne _ (by decide))
    have e42 : (scname = "chinese") = False := eq_false (hne _ (by decide))
    have e43 : (scname = "egyptian") = False := eq_false (hne _ (by decide))
    have e44 : (scname = "enigmatic") = False := eq_false (hne _ (by decide))
    have e45 : (scname = "spanish") = False := eq_false (hne _ (by decide))
    have e46 : (scname = "gypsy") = False := eq_false (hne _ (by decide))
    have e47 : (scname = "super_locrian") = False := eq_false (hne _ (by decide))
    have e48 : (scname = "prometheus") = False := eq_false (hne _ (by decide))
    have e49 : (scname = "neapolitan_minor") = False := eq_false (hne _ (by decide))
    have e50 : (scname = "neapolitan_major") = False := eq_false (hne _ (by decide))
    have e51 : (scname = "bartok") = False := eq_false (hne _ (by decide))
    have e52 : (scname = "bhairav") = False := eq_false (hne _ (by decide))
    have e53 : (scname = "ahirbhairav") = False := eq_false (hne _ (by decide))
    have e54 : (scname = "marva") = False := eq_false (hne _ (by decide))
    have e55 : (scname = "todi") = False := eq_false (hne _ (by decide))
    have e56 : (scname = "purvi") = False := eq_false (hne _ (by decide))
    simp only [e1, e2, e3, e4, e5, e6, e7, e8, e9, e10, e11, e12, e13, e14, e15, e16, e17, e18, e19, e20, e21, e22, e23, e24, e25, e26, e27, e28, e29, e30, e31, e32, e33, e34, e35, e36, e37, e38, e39, e40, e41, e42, e43, e44, e45, e46, e47, e48, e49, e50, e51, e52, e53, e54, e55, e56, or_self, or_false, false_or, if_false]
  · unfold chord_intervals
    have hne : ∀ t ∈ known_chord_names, ccname ≠ t :=
      fun t ht hc => hcc (hc ▸ ht)
    have e1 : (ccname = "major") = False := eq_false (hne _ (by decide))
    have e2 : (ccname = "M") = False := eq_false (hne _ (by decide))
    have e3 : (ccname = "minor") = False := eq_false (hne _ (by decide))
    have e4 : (ccname = "m") = False := eq_false (hne _ (by decide))
    have e5 : (ccname = "major7") = False := eq_false (hne _ (by decide))
    have e6 : (ccname = "M7") = False := eq_false (hne _ (by decide))
    have e7 : (ccname = "maj7") = False := eq_false (hne _ (by decide))
    have e8 : (ccname = "minor7") = False := eq_false (hne _ (by decide))
    have e9 : (ccname = "m7") = False := eq_false (hne _ (by decide))
    have e10 : (ccname = "min7") = False := eq_false (hne _ (by decide))
    have e11 : (ccname = "dom7") = False := eq_false (hne _ (by decide))
    have e12 : (ccname = "7") = False := eq_false (hne _ (by decide))
    have e13 : (ccname = "dim") = False := eq_false (hne _ (by decide))
    have e14 : (ccname = "diminished") = False := eq_false (hne _ (by decide))
    have e15 : (ccname = "dim7") = False := eq_false (hne _ (by decide))
    have e16 : (ccname = "diminished7") = False := eq_false (hne _ (by decide))
    have e17 : (ccname = "aug") = False := eq_false (hne _ (by decide))
    have e18 : (ccname = "augmented") = False := eq_false (hne _ (by decide))
    have e19 : (ccname = "sus2") = False := eq_false (hne _ (by decide))
    have e20 : (ccname = "sus4") = False := eq_false (hne _ (by decide))
    have e21 : (ccname = "add9") = False := eq_false (hne _ (by decide))
    have e22 : (ccname = "m9") = False := eq_false (hne _ (by decide))
    have e23 : (ccname = "minor9") = False := eq_false (hne _ (by decide))
    have e24 : (ccname = "9") = False := eq_false (hne _ (by decide))
    have e25 : (ccname = "dom9") = False := eq_false (hne _ (by decide))
    have e26 : (ccname = "11") = False := eq_false (hne _ (by decide))
    have e27 : (ccname = "13") = False := eq_false (hne _ (by decide))
    have e28 : (ccname = "power") = False := eq_false (hne _ (by decide))
    have e29 : (ccname = "5") = False := eq_false (hne _ (by decide))
    have e30 : (ccname = "i") = False := eq_false (hne _ (by decide))
    have e31 : (ccname = "ii") = False := eq_false (hne _ (by decide))
    simp only [e1, e2, e3, e4, e5, e6, e7, e8, e9, e10, e11, e12, e13, e14, e15, e16, e17, e18, e19, e20, e21, e22, e23, e24, e25, e26, e27, e28, e29, e30, e31, or_self, or_false, false_or, if_false]

theorem c7_witness :
    plain_unrecognized_line "frobnicate 42" ∧
    parse_plain_line "frobnicate 42" = .ok [] ∧
    parse_synth_name "warbletron" = .Sine ∧
    scale_intervals "klingon" = [0, 2, 4, 5, 7, 9, 11] ∧
    chord_intervals "strange" = [0, 4, 7] :=
  ⟨by decide,
   (c7_forgiving_fallbacks "frobnicate 42" "warbletron" "klingon" "strange"
     (by decide) (by decide) (by decide) (by decide)).1,
   (c7_forgiving_fallbacks "frobnicate 42" "warbletron" "klingon" "strange"
     (by decide) (by decide) (by decide) (by decide)).2.1,
   (c7_forgiving_fallbacks "frobnicate 42" "warbletron" "klingon" "strange"
     (by decide) (by decide) (by decide) (by decide)).2.2.1,
   (c7_forgiving_fallbacks "frobnicate 42" "warbletron" "klingon" "strange"
     (by decide) (by decide) (by decide) (by decide)).2.2.2⟩

/-- C7 counterexample: the unrecognised line `frobnicate 42` parses to
an empty command list — it does not contribute a Comment command. -/
theorem c7_counterexample :
    parse_plain_line "frobnicate 42" = .ok [] ∧
    ∀ s, parse_plain_line "frobnicate 42" ≠ .ok [.Comment s] := by
  have h0 : parse_plain_line "frobnicate 42" = .ok [] := rfl
  refine ⟨h0, fun s hc => ?_⟩
  rw [h0] at hc
  simp at hc

/-- helper invariant: when every referenced sample is missing on disk,
preloading succeeds, keeps every cached entry, only ever adds the
fallback entry, and caches something for every referenced name. -/
theorem preload_ok_of_missing (fs : String → Bool)
    (lw : String → Except String (List ℝ × ℕ)) (resolve : String → String) :
    ∀ (parsed : List ParsedCommand) (loaded : List (String × (List ℝ × ℕ))),
    (∀ nm ∈ sample_names_of parsed, fs (resolve nm) = false) →
    ∃ loaded', preload_samples fs lw resolve parsed loaded = .ok loaded' ∧
      (∀ k v, loaded.lookup k = some v → loaded'.lookup k = some v) ∧
      (∀ k v, loaded'.lookup k = some v →
        loaded.lookup k = some v ∨ v = (fallback_buffer, 44100)) ∧
      (∀ nm ∈ sample_names_of parsed,
        (loaded'.lookup (resolve nm)).isSome) := by
  intro parsed loaded
  induction parsed, loaded using preload_samples.induct fs lw resolve with
  | case1 loaded =>
      intro _
      exact ⟨loaded, by simp [preload_samples], fun k v h => h,
        fun k v h => Or.inl h, by simp [sample_names_of]⟩
  | case2 rest loaded name rate amp pan path hcached ih =>
      intro hmiss
      have hmiss' : ∀ nm ∈ sample_names_of rest, fs (resolve nm) = false :=
        fun nm hnm => hmiss nm (by simp [sample_names_of, hnm])
      obtain ⟨loaded', hok, hpres, hadd, hcov⟩ := ih hmiss'
      refine ⟨loaded', ?_, hpres, hadd, ?_⟩
      · simp only [preload_samples, path, hcached, if_pos]
        exact hok
      · intro nm hnm
        simp only [sample_names_of, List.mem_cons] at hnm
        rcases hnm with hnm | hnm
        · subst hnm
          obtain ⟨v, hv⟩ := Option.isSome_iff_exists.mp hcached
          exact Option.isSome_iff_exists.mpr ⟨v, hpres _ _ hv⟩
        · exact hcov nm hnm
  | case3 rest loaded name rate amp pan path hnew hfs sa hlw ih =>
      intro hmiss
      exfalso
      have h0 := hmiss name (by simp [sample_names_of])
      rw [show resolve name = path from rfl] at h0
      rw [h0] at hfs
      exact Bool.false_ne_true hfs
  | case4 rest loaded name rate amp pan path hnew hfs e hlw =>
      intro hmiss
      exfalso
      have h0 := hmiss name (by simp [sample_names_of])
      rw [show resolve name = path from rfl] at h0
      rw [h0] at hfs
      exact Bool.false_ne_true hfs
  | case5 rest loaded name rate amp pan path hnew hnfs ih =>
      intro hmiss
      have hmiss' : ∀ nm ∈ sample_names_of rest, fs (resolve nm) = false :=
        fun nm hnm => hmiss nm (by simp [sample_names_of, hnm])
      obtain ⟨loaded', hok, hpres, hadd, hcov⟩ := ih hmiss'
      have hnone : List.lookup path loaded = none :=
        Option.not_isSome_iff_eq_none.mp hnew
      refine ⟨loaded', ?_, ?_, ?_, ?_⟩
      · simp only [preload_samples, path, hnew, hnfs]
        simpa using hok
      · intro k v hv
        apply hpres
        have hk : (k == path) = false := by
          rw [beq_eq_false_iff_ne]
          intro hcon
          rw [hcon, hnone] at hv
          exact Option.noConfusion hv
        simpa [List.lookup, hk] using hv
      · intro k v hv
        rcases hadd k v hv with h | h
        · by_cases hk : (k == path) = true
          · simp only [List.lookup, hk] at h
            exact Or.inr (Option.some.inj h).symm
          · rw [Bool.not_eq_true] at hk
            simp only [List.lookup, hk] at h
            exact Or.inl h
        · exact Or.inr h
      · intro nm hnm
        simp only [sample_names_of, List.mem_cons] at hnm
        rcases hnm with hnm | hnm
        · subst hnm
          refine Option.isSome_iff_exists.mpr
            ⟨(fallback_buffer, 44100), hpres _ _ ?_⟩
          simp [List.lookup, show resolve nm = path from rfl]
        · exact hcov nm hnm
  | case6 rest loaded name body par loaded2 hbodyok ih2 ih1 =>
      intro hmiss
      have hmb : ∀ nm ∈ sample_names_of body, fs (resolve nm) = false :=
        fun nm hnm => hmiss nm (by simp [sample_names_of, hnm])
      have hmr : ∀ nm ∈ sample_names_of rest, fs (resolve nm) = false :=
        fun nm hnm => hmiss nm (by simp [sample_names_of, hnm])
      obtain ⟨l2, hok2, hpres2, hadd2, hcov2⟩ := ih2 hmb
      rw [hbodyok] at hok2
      obtain rfl : loaded2 = l2 := (Except.ok.injEq _ _).mp hok2
      obtain ⟨l3, hok3, hpres3, hadd3, hcov3⟩ := ih1 hmr
      refine ⟨l3, ?_, fun k v hv => hpres3 _ _ (hpres2 _ _ hv),
        ?_, ?_⟩
      · simp only [preload_samples, hbodyok]
        exact hok3
      · intro k v hv
        rcases hadd3 k v hv with h | h
        · exact hadd2 k v h
        · exact Or.inr h
      · intro nm hnm
        simp only [sample_names_of, List.mem_append] at hnm
        rcases hnm with hnm | hnm
        · obtain ⟨v, hv⟩ := Option.isSome_iff_exists.mp (hcov2 nm hnm)
          exact Option.isSome_iff_exists.mpr ⟨v, hpres3 _ _ hv⟩
        · exact hcov3 nm hnm
  | case7 rest loaded name body par e hbodyerr ih1 =>
      intro hmiss
      exfalso
      have hmb : ∀ nm ∈ sample_names_of body, fs (resolve nm) = false :=
        fun nm hnm => hmiss nm (by simp [sample_names_of, hnm])
      obtain ⟨l2, hok2, _⟩ := ih1 hmb
      rw [hbodyerr] at hok2
      exact Except.noConfusion hok2
  | case8 rest loaded ft ps body loaded2 hbodyok ih2 ih1 =>
      intro hmiss
      have hmb : ∀ nm ∈ sample_names_of body, fs (resolve nm) = false :=
        fun nm hnm => hmiss nm (by simp [sample_names_of, hnm])
      have hmr : ∀ nm ∈ sample_names_of rest, fs (resolve nm) = false :=
        fun nm hnm => hmiss nm (by simp [sample_names_of, hnm])
      obtain ⟨l2, hok2, hpres2, hadd2, hcov2⟩ := ih2 hmb
      rw [hbodyok] at hok2
      obtain rfl : loaded2 = l2 := (Except.ok.injEq _ _).mp hok2
      obtain ⟨l3, hok3, hpres3, hadd3, hcov3⟩ := ih1 hmr
      refine ⟨l3, ?_, fun k v hv => hpres3 _ _ (hpres2 _ _ hv), ?_, ?_⟩
      · simp only [preload_samples, hbodyok]
        exact hok3
      · intro k v hv
        rcases hadd3 k v hv with h | h
        · exact hadd2 k v h
        · exact Or.inr h
      · intro nm hnm
        simp only [sample_names_of, List.mem_append] at hnm
        rcases hnm with hnm | hnm
        · obtain ⟨v, hv⟩ := Option.isSome_iff_exists.mp (hcov2 nm hnm)
          exact Option.isSome_iff_exists.mpr ⟨v, hpres3 _ _ hv⟩
        · exact hcov3 nm hnm
  | case9 rest loaded ft ps body e hbodyerr ih1 =>
      intro hmiss
      exfalso
      have hmb : ∀ nm ∈ sample_names_of body, fs (resolve nm) = false :=
        fun nm hnm => hmiss nm (by simp [sample_names_of, hnm])
      obtain ⟨l2, hok2, _⟩ := ih1 hmb
      rw [hbodyerr] at hok2
      exact Except.noConfusion hok2
  | case10 rest loaded cnt body loaded2 hbodyok ih2 ih1 =>
      intro hmiss
      have hmb : ∀ nm ∈ sample_names_of body, fs (resolve nm) = false :=
        fun nm hnm => hmiss nm (by simp [sample_names_of, hnm])
      have hmr : ∀ nm ∈ sample_names_of rest, fs (resolve nm) = false :=
        fun nm hnm => hmiss nm (by simp [sample_names_of, hnm])
      obtain ⟨l2, hok2, hpres2, hadd2, hcov2⟩ := ih2 hmb
      rw [hbodyok] at hok2
      obtain rfl : loaded2 = l2 := (Except.ok.injEq _ _).mp hok2
      obtain ⟨l3, hok3, hpres3, hadd3, hcov3⟩ := ih1 hmr
      refine ⟨l3, ?_, fun k v hv => hpres3 _ _ (hpres2 _ _ hv), ?_, ?_⟩
      · simp only [preload_samples, hbodyok]
        exact hok3
      · intro k v hv
        rcases hadd3 k v hv with h | h
        · exact hadd2 k v h
        · exact Or.inr h
      · intro nm hnm
        simp only [sample_names_of, List.mem_append] at hnm
        rcases hnm with hnm | hnm
        · obtain ⟨v, hv⟩ := Option.isSome_iff_exists.mp (hcov2 nm hnm)
          exact Option.isSome_iff_exists.mpr ⟨v, hpres3 _ _ hv⟩
        · exact hcov3 nm hnm
  | case11 rest loaded cnt body e hbodyerr ih1 =>
      intro hmiss
      exfalso
      have hmb : ∀ nm ∈ sample_names_of body, fs (resolve nm) = false :=
        fun nm hnm => hmiss nm (by simp [sample_names_of, hnm])
      obtain ⟨l2, hok2, _⟩ := ih1 hmb
      rw [hbodyerr] at hok2
      exact Except.noConfusion hok2
  | case12 rest loaded c hnp hnl hnw hnt ih1 =>
      intro hmiss
      cases c <;> first
        | exact (hnp _ _ _ _ rfl).elim
        | exact (hnl _ _ _ rfl).elim
        | exact (hnw _ _ _ rfl).elim
        | exact (hnt _ _ rfl).elim
        | (simp only [sample_names_of] at hmiss ⊢
           simp only [preload_samples]
           exact ih1 hmiss)

/-- C8: when every referenced sample's resolved path is missing,
`preload_samples` succeeds, caches under each requested (resolved) key a
mono fallback buffer of exactly 8820 samples (0.2 s at 44100 Hz) whose
i-th sample is `sin(2*pi*440*t) * exp(-20*t)` with `t = i/44100`. -/
theorem c8_missing_sample_fallback (fs : String → Bool)
    (lw : String → Except String (List ℝ × ℕ)) (resolve : String → String)
    (parsed : List ParsedCommand) (loaded : List (String × (List ℝ × ℕ)))
    (hmiss : ∀ nm ∈ sample_names_of parsed, fs (resolve nm) = false) :
    (∃ loaded', preload_samples fs lw resolve parsed loaded = .ok loaded' ∧
      ∀ nm ∈ sample_names_of parsed, loaded.lookup (resolve nm) = none →
        loaded'.lookup (resolve nm) = some (fallback_buffer, 44100)) ∧
    fallback_buffer.length = 8820 ∧
    (∀ i, i < 8820 → fallback_buffer.getD i 0 =
      Real.sin (2 * Real.pi * 440 * ((i : ℝ) / 44100)) *
        Real.exp (-20 * ((i : ℝ) / 44100))) := by
  refine ⟨?_, ?_, ?_⟩
  · obtain ⟨loaded', hok, hpres, hadd, hcov⟩ :=
      preload_ok_of_missing fs lw resolve parsed loaded hmiss
    refine ⟨loaded', hok, ?_⟩
    intro nm hnm hnone
    obtain ⟨v, hv⟩ := Option.isSome_iff_exists.mp (hcov nm hnm)
    rcases hadd _ _ hv with h | h
    · rw [hnone] at h
      exact Option.noConfusion h
    · rw [h] at hv
      exact hv
  · simp [fallback_buffer]
  · intro i hi
    have hval : fallback_buffer.getD i 0 = fallback_sample i := by
      simp [fallback_buffer, List.getD_eq_getElem?_getD, List.getElem?_map,
        List.getElem?_range, hi]
    have h1 : (i : ℝ) / 44100 * 440 * 2 * Real.pi =
        2 * Real.pi * 440 * ((i : ℝ) / 44100) := by ring
    have h2 : -((i : ℝ) / 44100) * 20 = -20 * ((i : ℝ) / 44100) := by ring
    rw [hval]
    unfold fallback_sample
    rw [h1, h2]

theorem c8_witness :
    (∀ nm ∈ sample_names_of [ParsedCommand.PlaySample "kick" 1 1 0],
      (fun (_ : String) => false) (id nm) = false) ∧
    (∃ loaded', preload_samples (fun _ => false)
        (fun _ => .error "boom") id [.PlaySample "kick" 1 1 0] [] =
          .ok loaded' ∧
      ∀ nm ∈ sample_names_of [ParsedCommand.PlaySample "kick" 1 1 0],
        (List.lookup (id nm) ([] : List (String × (List ℝ × ℕ)))) = none →
          loaded'.lookup (id nm) = some (fallback_buffer, 44100)) ∧
    fallback_buffer.length = 8820 :=
  ⟨by simp,
   (c8_missing_sample_fallback (fun _ => false) (fun _ => .error "boom") id
      [.PlaySample "kick" 1 1 0] [] (by simp)).1,
   (c8_missing_sample_fallback (fun _ => false) (fun _ => .error "boom") id
      [.PlaySample "kick" 1 1 0] [] (by simp)).2.1⟩
